import Mathlib

/-!
Verification of the tolerant JSON decoders of the nhncloud-sdk-go
networking bindings (routing tables and internet gateways).

The Go source is shallowly embedded: JSON documents become an inductive
`Json` tree (numbers are modelled as integers, which covers every payload
appearing in the development); Go's `encoding/json` unmarshalling into the
repository's structs, including the custom `UnmarshalJSON`/`MarshalJSON`
methods, becomes explicit `Except`-returning Lean functions; `time.Parse`
for the layouts used by the source becomes explicit character-list parsers
following the documented Go parsing rules for those layouts.
-/

/-- A JSON document.  Numbers are modelled as integers: no claim in this
development depends on non-integral numeric payloads, and Go's decoder
rejects a number wherever the claims feed one in.  Object fields keep
their textual order; duplicate keys are resolved by `Json.lookupKey`
(last binding wins, as in Go's `encoding/json`). -/
inductive Json where
  | null : Json
  | bool (b : Bool) : Json
  | num (n : Int) : Json
  | str (s : String) : Json
  | arr (elems : List Json) : Json
  | obj (fields : List (String × Json)) : Json

namespace Json

/-- Field lookup in a JSON object, last binding wins (Go's
`encoding/json` lets later duplicate keys overwrite earlier ones). -/
def lookupKey (fields : List (String × Json)) (k : String) : Option Json :=
  fields.reverse.lookup k

/-- Is this value a JSON string? -/
def isStr : Json → Bool
  | .str _ => true
  | _ => false

/-- Is this value a JSON array? -/
def isArr : Json → Bool
  | .arr _ => true
  | _ => false

/-- Is this value a JSON object? -/
def isObj : Json → Bool
  | .obj _ => true
  | _ => false

end Json

/-! ## Flexible reference decoders

Source: `openstack/networking/v2/extensions/layer3/routingtables/results.go`,
`FlexibleSubnetInfo` / `FlexibleVPCInfo` and their custom
`UnmarshalJSON` / `MarshalJSON` methods. -/

/-- `FlexibleSubnetInfo` from the source: handles both string IDs and full
subnet objects from the API. -/
structure FlexibleSubnetInfo where
  ID : String
  Name : String
deriving DecidableEq, Repr

/-- `FlexibleVPCInfo` from the source: handles both string IDs and full
VPC objects from the API. -/
structure FlexibleVPCInfo where
  ID : String
  Name : String
deriving DecidableEq, Repr

/-- Decoding a string-typed Go struct field from a JSON value, as
`encoding/json` does inside an object: a JSON `null` is a no-op (the field
keeps its zero value `""`), a JSON string is taken verbatim, anything else
is an `UnmarshalTypeError`.  `k` names the offending field in the error. -/
def decodeStringField (k : String) : Json → Except String String
  | .null => .ok ""
  | .str s => .ok s
  | _ => .error k

/-- Go `json.Unmarshal` of a JSON value into a struct with the two
optional string fields `id` and `name` (the `subnetAlias` / `vpcAlias`
target of the source's object branch).  The top-level value must be an
object (or `null`, which is a no-op); absent fields stay at their zero
value; a present field of the wrong type is an error. -/
def decodeIdNameObject (j : Json) : Except String (String × String) :=
  match j with
  | .null => .ok ("", "")
  | .obj fields => do
    let id ← decodeStringField "id" ((Json.lookupKey fields "id").getD .null)
    let name ← decodeStringField "name" ((Json.lookupKey fields "name").getD .null)
    .ok (id, name)
  | _ => .error "object"

/-- `FlexibleSubnetInfo.UnmarshalJSON` from the source: first try to
unmarshal the value as a bare ID string (in Go a JSON `null` also succeeds
on this branch as a no-op, leaving both fields empty); if that fails, try
the full object form. -/
def FlexibleSubnetInfo.unmarshalJSON (j : Json) : Except String FlexibleSubnetInfo :=
  match j with
  | .str s => .ok ⟨s, ""⟩
  | .null => .ok ⟨"", ""⟩
  | other => (decodeIdNameObject other).map fun p => ⟨p.1, p.2⟩

/-- `FlexibleSubnetInfo.MarshalJSON` from the source: if only the ID is
set, marshal as a bare string; otherwise marshal as an object (both fields
carry `omitempty`, so empty fields are dropped). -/
def FlexibleSubnetInfo.marshalJSON (f : FlexibleSubnetInfo) : Json :=
  if f.Name = "" ∧ f.ID ≠ "" then .str f.ID
  else .obj ((if f.ID ≠ "" then [("id", Json.str f.ID)] else []) ++
             (if f.Name ≠ "" then [("name", Json.str f.Name)] else []))

/-- `FlexibleVPCInfo.UnmarshalJSON` from the source: same two-branch
strategy as the subnet variant. -/
def FlexibleVPCInfo.unmarshalJSON (j : Json) : Except String FlexibleVPCInfo :=
  match j with
  | .str s => .ok ⟨s, ""⟩
  | .null => .ok ⟨"", ""⟩
  | other => (decodeIdNameObject other).map fun p => ⟨p.1, p.2⟩

/-- `FlexibleVPCInfo.MarshalJSON` from the source: bare string when only
the ID is set, object form (with `omitempty` fields) otherwise. -/
def FlexibleVPCInfo.marshalJSON (f : FlexibleVPCInfo) : Json :=
  if f.Name = "" ∧ f.ID ≠ "" then .str f.ID
  else .obj ((if f.ID ≠ "" then [("id", Json.str f.ID)] else []) ++
             (if f.Name ≠ "" then [("name", Json.str f.Name)] else []))

/-! ## The NHN Cloud timestamp decoder

Source: `NHNCloudTime` and its `UnmarshalJSON` / `MarshalJSON` in
`routingtables/results.go`, plus Go's `time.Parse` for the six layout
strings listed there and the single layout used by
`internetgateways/results.go`. -/

/-- A Go `time.Time` as produced by `time.Parse` on the layouts of this
repository: the parsed wall-clock fields together with the parsed zone
offset (minutes east of UTC; `0` when the layout carries no zone, which
Go reads as UTC). -/
structure GoTime where
  year : Nat
  month : Nat
  day : Nat
  hour : Nat
  minute : Nat
  second : Nat
  nanos : Nat
  offsetMin : Int
deriving DecidableEq, Repr

/-- The zero Go `time.Time`: January 1 of year 1, 00:00:00 UTC. -/
def GoTime.zero : GoTime := ⟨1, 1, 1, 0, 0, 0, 0, 0⟩

/-- Leap-year test used by Go's date validation. -/
def isLeapYear (y : Nat) : Bool :=
  (y % 4 = 0 ∧ y % 100 ≠ 0) ∨ y % 400 = 0

/-- Days in a month, as Go's `daysIn`. -/
def daysInMonth (y m : Nat) : Nat :=
  if m = 2 then (if isLeapYear y then 29 else 28)
  else if m = 4 ∨ m = 6 ∨ m = 9 ∨ m = 11 then 30
  else 31

/-- Day count of a civil date (years from 1, month 1-12, day 1-31) on a
proleptic Gregorian calendar; used only to compare instants. -/
def civilDays (y m d : Nat) : Nat :=
  let y' := if m ≤ 2 then y - 1 else y
  let era := y' / 400
  let yoe := y' - era * 400
  let mp := if 2 < m then m - 3 else m + 9
  let doy := (153 * mp + 2) / 5 + d - 1
  let doe := yoe * 365 + yoe / 4 - yoe / 100 + doy
  era * 146097 + doe

/-- The absolute instant (in seconds on an arbitrary fixed epoch) named
by a `GoTime`: wall-clock seconds minus the zone offset. -/
def GoTime.instant (t : GoTime) : Int :=
  ((civilDays t.year t.month t.day * 86400 + t.hour * 3600 +
    t.minute * 60 + t.second : Nat) : Int) - t.offsetMin * 60

/-- Two `GoTime`s denote the same absolute instant. -/
def GoTime.sameInstant (t u : GoTime) : Prop :=
  t.instant = u.instant ∧ t.nanos = u.nanos

instance (t u : GoTime) : Decidable (t.sameInstant u) := by
  unfold GoTime.sameInstant; infer_instance

/-- Go `Time.IsZero`: the instant equals the zero time's instant (with
zero nanoseconds). -/
def GoTime.isZero (t : GoTime) : Prop := t.sameInstant GoTime.zero

instance (t : GoTime) : Decidable t.isZero := by
  unfold GoTime.isZero; infer_instance

/-- The decimal digit character for `n % 10`. -/
def digitChar (n : Nat) : Char :=
  match n % 10 with
  | 0 => '0' | 1 => '1' | 2 => '2' | 3 => '3' | 4 => '4'
  | 5 => '5' | 6 => '6' | 7 => '7' | 8 => '8' | _ => '9'

/-- The numeric value of a decimal digit character, computed from the
character code as Go's `getnum` does. -/
def digitVal? (c : Char) : Option Nat :=
  if '0' ≤ c ∧ c ≤ '9' then some (c.toNat - 48) else none

/-- A two-digit zero-padded decimal numeral (Go layout `01`, `02`, `15`,
`04`, `05`). -/
def pad2 (n : Nat) : List Char := [digitChar (n / 10), digitChar n]

/-- A four-digit zero-padded decimal numeral (Go layout `2006`). -/
def pad4 (n : Nat) : List Char :=
  [digitChar (n / 1000), digitChar (n / 100), digitChar (n / 10), digitChar n]

/-- A six-digit zero-padded decimal numeral (Go layout fraction
`000000`, printing `nanos / 1000`). -/
def pad6 (n : Nat) : List Char :=
  [digitChar (n / 100000), digitChar (n / 10000), digitChar (n / 1000),
   digitChar (n / 100), digitChar (n / 10), digitChar n]

/-- Parse exactly two decimal digits (Go `getnum` with a zero-padded
layout element). -/
def parse2 : List Char → Option (Nat × List Char)
  | c1 :: c2 :: rest =>
    match digitVal? c1, digitVal? c2 with
    | some a, some b => some (10 * a + b, rest)
    | _, _ => none
  | _ => none

/-- Parse exactly four decimal digits (Go layout `2006`). -/
def parse4 : List Char → Option (Nat × List Char)
  | c1 :: c2 :: c3 :: c4 :: rest =>
    match digitVal? c1, digitVal? c2, digitVal? c3, digitVal? c4 with
    | some a, some b, some c, some d => some (1000 * a + 100 * b + 10 * c + d, rest)
    | _, _, _, _ => none
  | _ => none

/-- Require a literal character. -/
def expectChar (c : Char) : List Char → Option (List Char)
  | x :: rest => if x = c then some rest else none
  | [] => none

/-- Take a maximal run of decimal digits together with its value. -/
def takeDigits : List Char → (List Nat × List Char)
  | [] => ([], [])
  | c :: rest =>
    match digitVal? c with
    | some d => let (ds, r) := takeDigits rest; (d :: ds, r)
    | none => ([], c :: rest)

/-- Go `parseNanoseconds` for a fraction whose length the layout does
not fix: the caller consumes the whole digit run, but the value is
truncated to the first nine digits and scaled to nanoseconds (longer
runs are cut off, not rejected); an `atoi` of at most nine digits
cannot fail, so this path never errors on a non-empty run. -/
def nanosOfDigits (ds : List Nat) : Nat :=
  ((ds.take 9).foldl (fun acc d => acc * 10 + d) 0) * 10 ^ (9 - (ds.take 9).length)

/-- Go's parse-time allowance: even when the layout has no fractional
second, an input fraction directly after the seconds is accepted — a
comma or period followed by a maximal run of digits, all of which are
consumed. -/
def parseFracOpt (l : List Char) : Option (Nat × List Char) :=
  match l with
  | c :: c2 :: rest =>
    if (c = '.' ∨ c = ',') ∧ (digitVal? c2).isSome then
      let (ds, r) := takeDigits (c2 :: rest)
      some (nanosOfDigits ds, r)
    else some (0, l)
  | _ => some (0, l)

/-- A required fractional second of exactly six digits (Go layout
`.000000`): a comma or period, then six digits, scaled to nanoseconds. -/
def parseFrac6 (l : List Char) : Option (Nat × List Char) :=
  match l with
  | c :: rest =>
    if c = '.' ∨ c = ',' then
      match parse2 rest with
      | some (a, r1) =>
        match parse2 r1 with
        | some (b, r2) =>
          match parse2 r2 with
          | some (c', r3) => some ((10000 * a + 100 * b + c') * 1000, r3)
          | none => none
        | none => none
      | none => none
    else none
  | [] => none

/-- Go layout element `Z07:00` (ISO 8601 zone with colon): a literal `Z`
meaning UTC, or a sign, two hour digits, a colon and two minute digits. -/
def parseZoneColon (l : List Char) : Option (Int × List Char) :=
  match l with
  | 'Z' :: rest => some (0, rest)
  | c :: rest =>
    if c = '+' ∨ c = '-' then
      match parse2 rest with
      | some (hh, r1) =>
        match expectChar ':' r1 with
        | some r2 =>
          match parse2 r2 with
          | some (mm, r3) =>
            some ((if c = '+' then (hh * 60 + mm : Int) else -(hh * 60 + mm : Int)), r3)
          | none => none
        | none => none
      | none => none
    else none
  | [] => none

/-- The shared date-and-clock core of all six layouts:
`2006-01-02` then a separator (space or `T`) then `15:04:05`. -/
def parseCore (sep : Char) (l : List Char) : Option (Nat × Nat × Nat × Nat × Nat × Nat × List Char) :=
  match parse4 l with
  | none => none
  | some (y, l1) =>
  match expectChar '-' l1 with
  | none => none
  | some l2 =>
  match parse2 l2 with
  | none => none
  | some (mo, l3) =>
  match expectChar '-' l3 with
  | none => none
  | some l4 =>
  match parse2 l4 with
  | none => none
  | some (d, l5) =>
  match expectChar sep l5 with
  | none => none
  | some l6 =>
  match parse2 l6 with
  | none => none
  | some (h, l7) =>
  match expectChar ':' l7 with
  | none => none
  | some l8 =>
  match parse2 l8 with
  | none => none
  | some (mi, l9) =>
  match expectChar ':' l9 with
  | none => none
  | some l10 =>
  match parse2 l10 with
  | none => none
  | some (s, l11) => some (y, mo, d, h, mi, s, l11)

/-- Go's post-parse range validation (month, day-in-month, hour, minute,
second), then construction of the parsed `time.Time`. -/
def finishTime (y mo d h mi s ns : Nat) (off : Int) : Option GoTime :=
  if 1 ≤ mo ∧ mo ≤ 12 ∧ 1 ≤ d ∧ d ≤ daysInMonth y mo ∧
     h ≤ 23 ∧ mi ≤ 59 ∧ s ≤ 59 then
    some ⟨y, mo, d, h, mi, s, ns, off⟩
  else none

/-- `time.Parse` with layout `2006-01-02 15:04:05` (format 1 of the
source's list; also the only layout of the internet-gateway decoder). -/
def parseFmt1 (l : List Char) : Option GoTime :=
  match parseCore ' ' l with
  | none => none
  | some (y, mo, d, h, mi, s, rest) =>
  match parseFracOpt rest with
  | none => none
  | some (ns, rest2) =>
  if rest2 = [] then finishTime y mo d h mi s ns 0 else none

/-- `time.Parse` with layout `2006-01-02T15:04:05` (format 2). -/
def parseFmt2 (l : List Char) : Option GoTime :=
  match parseCore 'T' l with
  | none => none
  | some (y, mo, d, h, mi, s, rest) =>
  match parseFracOpt rest with
  | none => none
  | some (ns, rest2) =>
  if rest2 = [] then finishTime y mo d h mi s ns 0 else none

/-- `time.Parse` with layout `2006-01-02T15:04:05Z` (format 3; the lone
`Z` is a literal character in Go, not a zone element). -/
def parseFmt3 (l : List Char) : Option GoTime :=
  match parseCore 'T' l with
  | none => none
  | some (y, mo, d, h, mi, s, rest) =>
  match parseFracOpt rest with
  | none => none
  | some (ns, rest2) =>
  match expectChar 'Z' rest2 with
  | none => none
  | some rest3 =>
  if rest3 = [] then finishTime y mo d h mi s ns 0 else none

/-- `time.Parse` with layout `2006-01-02T15:04:05Z07:00` (format 4,
full RFC3339). -/
def parseFmt4 (l : List Char) : Option GoTime :=
  match parseCore 'T' l with
  | none => none
  | some (y, mo, d, h, mi, s, rest) =>
  match parseFracOpt rest with
  | none => none
  | some (ns, rest2) =>
  match parseZoneColon rest2 with
  | none => none
  | some (off, rest3) =>
  if rest3 = [] then finishTime y mo d h mi s ns off else none

/-- `time.Parse` with layout `2006-01-02 15:04:05.000000` (format 5). -/
def parseFmt5 (l : List Char) : Option GoTime :=
  match parseCore ' ' l with
  | none => none
  | some (y, mo, d, h, mi, s, rest) =>
  match parseFrac6 rest with
  | none => none
  | some (ns, rest2) =>
  if rest2 = [] then finishTime y mo d h mi s ns 0 else none

/-- `time.Parse` with layout `2006-01-02T15:04:05.000000Z` (format 6). -/
def parseFmt6 (l : List Char) : Option GoTime :=
  match parseCore 'T' l with
  | none => none
  | some (y, mo, d, h, mi, s, rest) =>
  match parseFrac6 rest with
  | none => none
  | some (ns, rest2) =>
  match expectChar 'Z' rest2 with
  | none => none
  | some rest3 =>
  if rest3 = [] then finishTime y mo d h mi s ns 0 else none

/-- The source's ordered format list: the first layout that parses wins,
remaining layouts are not tried. -/
def parseAnyFormat (l : List Char) : Option GoTime :=
  match parseFmt1 l with
  | some t => some t
  | none =>
  match parseFmt2 l with
  | some t => some t
  | none =>
  match parseFmt3 l with
  | some t => some t
  | none =>
  match parseFmt4 l with
  | some t => some t
  | none =>
  match parseFmt5 l with
  | some t => some t
  | none => parseFmt6 l

/-- `NHNCloudTime` from the source: a wrapped Go `time.Time`. -/
structure NHNCloudTime where
  time : GoTime
deriving DecidableEq, Repr

/-- Go `strings.Trim(s, quote)`: strip every leading and trailing
double-quote character. -/
def trimQuotes (l : List Char) : List Char :=
  ((l.dropWhile (fun c => c = '"')).reverse.dropWhile (fun c => c = '"')).reverse

/-- `NHNCloudTime.UnmarshalJSON` from the source, expressed on the JSON
value whose raw bytes the method receives.  For a JSON string the raw
bytes are the quoted text, so the source's quote-trim reduces to trimming
quotes from the text itself (no payload in this development carries
escape sequences at the ends of a timestamp string); `null` raw bytes are
the word `null`, caught by the source's explicit check; the raw bytes of
a number, boolean, array or object can never match any of the six
layouts (each layout demands a digit run followed by a hyphen), so those
inputs always reach the source's final error return. -/
def NHNCloudTime.unmarshalJSON (j : Json) : Except String NHNCloudTime :=
  match j with
  | .null => .ok ⟨GoTime.zero⟩
  | .str s =>
    let s' := trimQuotes s.data
    if s' = "null".data ∨ s' = [] then .ok ⟨GoTime.zero⟩
    else
      match parseAnyFormat s' with
      | some t => .ok ⟨t⟩
      | none => .error "unable to parse time with any known format"
  | _ => .error "unable to parse time with any known format"

/-- Go `Time.Format` with layout `2006-01-02 15:04:05`: the stored
wall-clock fields, zero-padded. -/
def formatCanonical (t : GoTime) : List Char :=
  pad4 t.year ++ '-' :: (pad2 t.month ++ '-' :: (pad2 t.day ++
    ' ' :: (pad2 t.hour ++ ':' :: (pad2 t.minute ++ ':' :: pad2 t.second))))

/-- `NHNCloudTime.MarshalJSON` from the source: the JSON `null` literal
for a zero time, otherwise the canonical space-separated format. -/
def NHNCloudTime.marshalJSON (ct : NHNCloudTime) : Json :=
  if ct.time.isZero then .null
  else .str (String.mk (formatCanonical ct.time))

/-! ## Routing-table records and the resilient extractor

Source: `RoutingTable`, `Route`, `RoutingTableResult.Extract`,
`ExtractRoutingTableWithFallback`, `parseRoutingTableFromMap`,
`parseFlexibleVPCs`, `parseFlexibleSubnets`, `parseRoutes` in
`routingtables/results.go`. -/

/-- `Route` from the source. -/
structure Route where
  ID : String
  CIDR : String
  Mask : Int
  Gateway : String
  GatewayID : String
  Description : Option String
  RoutingTableID : String
  TenantID : String
  Hidden : Bool
deriving DecidableEq, Repr

/-- The zero `Route`. -/
def Route.zero : Route := ⟨"", "", 0, "", "", none, "", "", false⟩

/-- `RoutingTable` from the source. -/
structure RoutingTable where
  ID : String
  Name : String
  DefaultTable : Bool
  Distributed : Bool
  GatewayID : String
  GatewayName : String
  TenantID : String
  State : String
  CreateTime : NHNCloudTime
  VPCs : List FlexibleVPCInfo
  Subnets : List FlexibleSubnetInfo
  Routes : List Route
deriving DecidableEq, Repr

/-- The zero `RoutingTable` (the struct literal the fallback parser
starts from). -/
def RoutingTable.zero : RoutingTable :=
  ⟨"", "", false, false, "", "", "", "", ⟨GoTime.zero⟩, [], [], []⟩

/-- Strict decode of a string struct field looked up by key: absent or
`null` leaves the zero value, a string is taken, anything else errors. -/
def decStr (fields : List (String × Json)) (k : String) : Except String String :=
  match Json.lookupKey fields k with
  | none => .ok ""
  | some .null => .ok ""
  | some (.str s) => .ok s
  | some _ => .error k

/-- Strict decode of a boolean struct field. -/
def decBool (fields : List (String × Json)) (k : String) : Except String Bool :=
  match Json.lookupKey fields k with
  | none => .ok false
  | some .null => .ok false
  | some (.bool b) => .ok b
  | some _ => .error k

/-- Strict decode of an integer struct field (`Route.Mask`). -/
def decInt (fields : List (String × Json)) (k : String) : Except String Int :=
  match Json.lookupKey fields k with
  | none => .ok 0
  | some .null => .ok 0
  | some (.num n) => .ok n
  | some _ => .error k

/-- Strict decode of a string-pointer struct field
(`Route.Description`): absent and `null` both leave a nil pointer. -/
def decOptStr (fields : List (String × Json)) (k : String) : Except String (Option String) :=
  match Json.lookupKey fields k with
  | none => .ok none
  | some .null => .ok none
  | some (.str s) => .ok (some s)
  | some _ => .error k

/-- Strict decode of the `create_time` field: Go hands the raw sub-value
(including a JSON `null`) to the custom `NHNCloudTime.UnmarshalJSON`;
an absent field keeps the zero value. -/
def decTime (fields : List (String × Json)) (k : String) : Except String NHNCloudTime :=
  match Json.lookupKey fields k with
  | none => .ok ⟨GoTime.zero⟩
  | some j => NHNCloudTime.unmarshalJSON j

/-- Strict decode of a whole list of flexible VPC references: the slice
itself must be `null`, absent, or an array, and every element must
decode. -/
def decVPCList (l : List Json) : Except String (List FlexibleVPCInfo) :=
  match l with
  | [] => .ok []
  | j :: rest => do
    let v ← FlexibleVPCInfo.unmarshalJSON j
    let vs ← decVPCList rest
    .ok (v :: vs)

/-- Strict decode of the `vpcs` struct field. -/
def decVPCs (fields : List (String × Json)) (k : String) : Except String (List FlexibleVPCInfo) :=
  match Json.lookupKey fields k with
  | none => .ok []
  | some .null => .ok []
  | some (.arr elems) => decVPCList elems
  | some _ => .error k

/-- Strict decode of a whole list of flexible subnet references. -/
def decSubnetList (l : List Json) : Except String (List FlexibleSubnetInfo) :=
  match l with
  | [] => .ok []
  | j :: rest => do
    let v ← FlexibleSubnetInfo.unmarshalJSON j
    let vs ← decSubnetList rest
    .ok (v :: vs)

/-- Strict decode of the `subnets` struct field. -/
def decSubnets (fields : List (String × Json)) (k : String) : Except String (List FlexibleSubnetInfo) :=
  match Json.lookupKey fields k with
  | none => .ok []
  | some .null => .ok []
  | some (.arr elems) => decSubnetList elems
  | some _ => .error k

/-- Strict decode of a single `Route` (plain `encoding/json` struct
decoding: the element must be an object or `null`; each field is decoded
by type). -/
def Route.strictDecode (j : Json) : Except String Route :=
  match j with
  | .null => .ok Route.zero
  | .obj f => do
    let id ← decStr f "id"
    let cidr ← decStr f "cidr"
    let mask ← decInt f "mask"
    let gw ← decStr f "gateway"
    let gwid ← decStr f "gateway_id"
    let desc ← decOptStr f "description"
    let rtid ← decStr f "routingtable_id"
    let tid ← decStr f "tenant_id"
    let hid ← decBool f "hidden"
    .ok ⟨id, cidr, mask, gw, gwid, desc, rtid, tid, hid⟩
  | _ => .error "route"

/-- Strict decode of a whole list of routes. -/
def decRouteList (l : List Json) : Except String (List Route) :=
  match l with
  | [] => .ok []
  | j :: rest => do
    let v ← Route.strictDecode j
    let vs ← decRouteList rest
    .ok (v :: vs)

/-- Strict decode of the `routes` struct field. -/
def decRoutes (fields : List (String × Json)) (k : String) : Except String (List Route) :=
  match Json.lookupKey fields k with
  | none => .ok []
  | some .null => .ok []
  | some (.arr elems) => decRouteList elems
  | some _ => .error k

/-- Strict `encoding/json` decode of a `RoutingTable` from the fields of
a JSON object: every field of the schema is decoded by type (order of
decoding does not affect which inputs succeed); any field error fails
the whole record. -/
def RoutingTable.strictDecode (fields : List (String × Json)) : Except String RoutingTable := do
  let id ← decStr fields "id"
  let name ← decStr fields "name"
  let deft ← decBool fields "default_table"
  let dist ← decBool fields "distributed"
  let gwid ← decStr fields "gateway_id"
  let gwname ← decStr fields "gateway_name"
  let tid ← decStr fields "tenant_id"
  let st ← decStr fields "state"
  let ct ← decTime fields "create_time"
  let vpcs ← decVPCs fields "vpcs"
  let subnets ← decSubnets fields "subnets"
  let routes ← decRoutes fields "routes"
  .ok ⟨id, name, deft, dist, gwid, gwname, tid, st, ct, vpcs, subnets, routes⟩

/-- The per-element switch of the source's `parseFlexibleVPCs`: a string
element becomes a bare-ID reference, an object element takes its `id` and
`name` entries when they are strings (a mistyped or absent entry is
skipped), and every other element is dropped (`none`). -/
def flexVPCElem? (j : Json) : Option FlexibleVPCInfo :=
  match j with
  | .str s => some ⟨s, ""⟩
  | .obj f =>
    some ⟨(match Json.lookupKey f "id" with | some (.str s) => s | _ => ""),
          (match Json.lookupKey f "name" with | some (.str s) => s | _ => "")⟩
  | _ => none

/-- `parseFlexibleVPCs` from the source: on an array, keep the elements
the switch accepts, in order; on anything else produce the empty list.
(The source's separate string-slice case arm is unreachable from
`encoding/json` output and coincides with the `[]interface` arm on
string arrays.) -/
def parseFlexibleVPCs (j : Json) : List FlexibleVPCInfo :=
  match j with
  | .arr elems => elems.filterMap flexVPCElem?
  | _ => []

/-- The per-element switch of the source's `parseFlexibleSubnets`. -/
def flexSubnetElem? (j : Json) : Option FlexibleSubnetInfo :=
  match j with
  | .str s => some ⟨s, ""⟩
  | .obj f =>
    some ⟨(match Json.lookupKey f "id" with | some (.str s) => s | _ => ""),
          (match Json.lookupKey f "name" with | some (.str s) => s | _ => "")⟩
  | _ => none

/-- `parseFlexibleSubnets` from the source. -/
def parseFlexibleSubnets (j : Json) : List FlexibleSubnetInfo :=
  match j with
  | .arr elems => elems.filterMap flexSubnetElem?
  | _ => []

/-- Permissive string read used throughout `parseRoutingTableFromMap`:
the Go type assertion `data[k].(string)`, with the zero value on a miss. -/
def mapStr (f : List (String × Json)) (k : String) : String :=
  match Json.lookupKey f k with
  | some (.str s) => s
  | _ => ""

/-- The Go type assertion `data[k].(bool)`, with the zero value on a miss. -/
def mapBool (f : List (String × Json)) (k : String) : Bool :=
  match Json.lookupKey f k with
  | some (.bool b) => b
  | _ => false

/-- The Go type assertion `data[k].(float64)` cast to `int`, with the
zero value on a miss. -/
def mapInt (f : List (String × Json)) (k : String) : Int :=
  match Json.lookupKey f k with
  | some (.num n) => n
  | _ => 0

/-- The per-element body of the source's `parseRoutes` loop: an object
element is read field by field with type assertions, every other element
is dropped. -/
def routeElem? (j : Json) : Option Route :=
  match j with
  | .obj f =>
    some ⟨mapStr f "id", mapStr f "cidr", mapInt f "mask", mapStr f "gateway",
          mapStr f "gateway_id",
          (match Json.lookupKey f "description" with
           | some (.str s) => some s | _ => none),
          mapStr f "routingtable_id", mapStr f "tenant_id", mapBool f "hidden"⟩
  | _ => none

/-- `parseRoutes` from the source. -/
def parseRoutes (elems : List Json) : List Route :=
  elems.filterMap routeElem?

/-- `parseRoutingTableFromMap` from the source: populate each field from
the untyped map with a type-check-and-skip policy; this parser never
fails.  The `create_time` entry is re-wrapped in quotes and handed to
`NHNCloudTime.UnmarshalJSON`, keeping the zero value on error; the
`vpcs` / `subnets` entries go through the flexible per-element parsers
whenever present; `routes` is parsed only when it asserts to an array. -/
def parseRoutingTableFromMap (f : List (String × Json)) : RoutingTable :=
  { ID := mapStr f "id"
    Name := mapStr f "name"
    DefaultTable := mapBool f "default_table"
    Distributed := mapBool f "distributed"
    GatewayID := mapStr f "gateway_id"
    GatewayName := mapStr f "gateway_name"
    TenantID := mapStr f "tenant_id"
    State := mapStr f "state"
    CreateTime :=
      match Json.lookupKey f "create_time" with
      | some (.str s) =>
        match NHNCloudTime.unmarshalJSON (.str s) with
        | .ok ct => ct
        | .error _ => ⟨GoTime.zero⟩
      | _ => ⟨GoTime.zero⟩
    VPCs :=
      match Json.lookupKey f "vpcs" with
      | some v => parseFlexibleVPCs v
      | none => []
    Subnets :=
      match Json.lookupKey f "subnets" with
      | some v => parseFlexibleSubnets v
      | none => []
    Routes :=
      match Json.lookupKey f "routes" with
      | some (.arr elems) => parseRoutes elems
      | _ => [] }

/-- A `gophercloud.Result` carried by the routing-table result types:
the decoded response body and a possible transport error. -/
structure RoutingTableResult where
  Body : Json
  Err : Option String

/-- The strict extraction attempted first by `Extract`: unmarshal the
body into a struct with one pointer field keyed `routingtable`.  The
body must be an object (or `null`, a no-op); an absent or `null` key
leaves a nil pointer; an object key is strictly decoded; any other key
type is an unmarshal error. -/
def extractStrict (body : Json) : Except String (Option RoutingTable) :=
  match body with
  | .null => .ok none
  | .obj bf =>
    match Json.lookupKey bf "routingtable" with
    | none => .ok none
    | some .null => .ok none
    | some (.obj f) => (RoutingTable.strictDecode f).map some
    | some _ => .error "routingtable"
  | _ => .error "body"

/-- `ExtractRoutingTableWithFallback` from the source (its `r.Err`
check already handled by the caller): re-extract the `routingtable` key
as raw JSON, retry the strict unmarshal, and on failure fall back to the
permissive map parser; a value that is not even an object (so that the
map unmarshal also fails) is a final error, and so is an absent key
(whose nil raw message fails both unmarshals).  A raw `null` unmarshals
into the zero record as a no-op. -/
def extractWithFallback (body : Json) : Except String (Option RoutingTable) :=
  match body with
  | .null => .error "empty raw routingtable"
  | .obj bf =>
    match Json.lookupKey bf "routingtable" with
    | none => .error "empty raw routingtable"
    | some .null => .ok (some RoutingTable.zero)
    | some (.obj f) =>
      match RoutingTable.strictDecode f with
      | .ok rt => .ok (some rt)
      | .error _ => .ok (some (parseRoutingTableFromMap f))
    | some _ => .error "failed to unmarshal routing table"
  | _ => .error "failed to extract response"

/-- `RoutingTableResult.Extract` from the source: propagate a stored
transport error, then try the strict extraction, then the fallback. -/
def RoutingTableResult.Extract (r : RoutingTableResult) : Except String (Option RoutingTable) :=
  match r.Err with
  | some e => .error e
  | none =>
    match extractStrict r.Body with
    | .ok rt => .ok rt
    | .error _ => extractWithFallback r.Body

/-! ## Derived accessors

Source: `GetSubnetIDs`, `GetSubnetNames`, `GetVPCIDs`, `GetVPCNames` in
`routingtables/results.go`. -/

/-- `RoutingTable.GetSubnetIDs` from the source: an ID slice of the same
length, position by position. -/
def RoutingTable.GetSubnetIDs (rt : RoutingTable) : List String :=
  rt.Subnets.map fun subnet => subnet.ID

/-- `RoutingTable.GetSubnetNames` from the source: an append loop that
keeps only non-empty names. -/
def RoutingTable.GetSubnetNames (rt : RoutingTable) : List String :=
  rt.Subnets.foldl (fun names subnet =>
    if subnet.Name ≠ "" then names ++ [subnet.Name] else names) []

/-- `RoutingTable.GetVPCIDs` from the source. -/
def RoutingTable.GetVPCIDs (rt : RoutingTable) : List String :=
  rt.VPCs.map fun vpc => vpc.ID

/-- `RoutingTable.GetVPCNames` from the source. -/
def RoutingTable.GetVPCNames (rt : RoutingTable) : List String :=
  rt.VPCs.foldl (fun names vpc =>
    if vpc.Name ≠ "" then names ++ [vpc.Name] else names) []

/-! ## Internet gateways

Source: `InternetGateway` and its `UnmarshalJSON` in
`internetgateways/results.go`: a plain struct decode with `create_time`
captured as a string and then parsed with the single layout
`2006-01-02 15:04:05`; an empty (or absent) string leaves the zero
time, a parse failure fails the whole gateway. -/

/-- `InternetGateway` from the source. -/
structure InternetGateway where
  ID : String
  Name : String
  ExternalNetworkID : String
  RoutingTableID : Option String
  State : String
  CreateTime : GoTime
  TenantID : String
  MigrateStatus : String
  MigrateError : Option String
deriving DecidableEq, Repr

/-- `InternetGateway.UnmarshalJSON` from the source.  The value must be
an object (or `null`, a no-op on the zero gateway); the auxiliary struct
decode reads every field by type with `create_time` as a plain string;
then a non-empty `create_time` must parse with the single layout. -/
def InternetGateway.unmarshalJSON (j : Json) : Except String InternetGateway :=
  match j with
  | .null => .ok ⟨"", "", "", none, "", GoTime.zero, "", "", none⟩
  | .obj f => do
    let id ← decStr f "id"
    let name ← decStr f "name"
    let ext ← decStr f "external_network_id"
    let rtid ← decOptStr f "routingtable_id"
    let st ← decStr f "state"
    let tid ← decStr f "tenant_id"
    let mst ← decStr f "migrate_status"
    let merr ← decOptStr f "migrate_error"
    let ctStr ← decStr f "create_time"
    if ctStr = "" then
      .ok ⟨id, name, ext, rtid, st, GoTime.zero, tid, mst, merr⟩
    else
      match parseFmt1 ctStr.data with
      | some t => .ok ⟨id, name, ext, rtid, st, t, tid, mst, merr⟩
      | none => .error "parsing time"
  | _ => .error "internetgateway"

/-! ## Pagination: the next-page link

Source: `RoutingTablePage.NextPageURL` in `routingtables/results.go`,
which unmarshals the page body into a struct holding a
`routingtables_links` slice of `gophercloud.Link` and hands it to
`gophercloud.ExtractNextURL`. -/

/-- `gophercloud.Link`: `href` and `rel` string fields (the `Title`
field of the collaborator is irrelevant here and carries the same
string decoding). -/
structure GophercloudLink where
  Href : String
  Rel : String
deriving DecidableEq, Repr

/-- Strict decode of one `gophercloud.Link` object. -/
def GophercloudLink.strictDecode (j : Json) : Except String GophercloudLink :=
  match j with
  | .null => .ok ⟨"", ""⟩
  | .obj f => do
    let href ← decStr f "href"
    let rel ← decStr f "rel"
    .ok ⟨href, rel⟩
  | _ => .error "link"

/-- Strict decode of a list of links. -/
def decLinkList (l : List Json) : Except String (List GophercloudLink) :=
  match l with
  | [] => .ok []
  | j :: rest => do
    let v ← GophercloudLink.strictDecode j
    let vs ← decLinkList rest
    .ok (v :: vs)

/-- Decode of the `routingtables_links` field from a page body: absent
or `null` leaves a nil slice. -/
def decodeRoutingTablesLinks (body : Json) : Except String (List GophercloudLink) :=
  match body with
  | .null => .ok []
  | .obj bf =>
    match Json.lookupKey bf "routingtables_links" with
    | none => .ok []
    | some .null => .ok []
    | some (.arr elems) => decLinkList elems
    | some _ => .error "routingtables_links"
  | _ => .error "body"

/-- Modelled from the spec: `gophercloud.ExtractNextURL`, the external
pager collaborator absent from the sources, which per the spec extracts
a next-page link from a conventional links field if present and makes a
link-free response report no next page (empty URL, no error). -/
def extractNextURL (links : List GophercloudLink) : Except String String :=
  .ok (links.foldl (fun url l => if l.Rel = "next" then l.Href else url) "")

/-- `RoutingTablePage.NextPageURL` from the source: decode the links
field of the page body and hand it to the collaborator. -/
def RoutingTablePage.NextPageURL (body : Json) : Except String String :=
  match decodeRoutingTablesLinks body with
  | .error e => .error e
  | .ok links => extractNextURL links

/-- Inversion for a successful bind over `Except`. -/
theorem exceptBind_ok {α β : Type} {x : Except String α} {g : α → Except String β} {b : β}
    (h : x >>= g = .ok b) : ∃ a, x = .ok a ∧ g a = .ok b := by
  cases x with
  | error e => simp [Bind.bind, Except.bind] at h
  | ok a => exact ⟨a, rfl, by simpa [Bind.bind, Except.bind] using h⟩

theorem digitVal?_digitChar (n : Nat) (h : n < 10) : digitVal? (digitChar n) = some n := by
  unfold digitChar
  interval_cases n <;> rfl

theorem parse2_pad2 (n : Nat) (r : List Char) (h : n < 100) :
    parse2 (pad2 n ++ r) = some (n, r) := by
  have h1 : n / 10 < 10 := by omega
  have h2 : n % 10 < 10 := by omega
  have e : digitChar n = digitChar (n % 10) := by
    have e0 : n % 10 % 10 = n % 10 := by omega
    unfold digitChar; rw [e0]
  simp [pad2, parse2, digitVal?_digitChar _ h1, e, digitVal?_digitChar _ h2]
  omega

theorem parse4_pad4 (n : Nat) (r : List Char) (h : n < 10000) :
    parse4 (pad4 n ++ r) = some (n, r) := by
  have h1 : n / 1000 < 10 := by omega
  have e2 : digitChar (n / 100) = digitChar (n / 100 % 10) := by
    have e0 : n / 100 % 10 % 10 = n / 100 % 10 := by omega
    unfold digitChar; rw [e0]
  have e3 : digitChar (n / 10) = digitChar (n / 10 % 10) := by
    have e0 : n / 10 % 10 % 10 = n / 10 % 10 := by omega
    unfold digitChar; rw [e0]
  have e4 : digitChar n = digitChar (n % 10) := by
    have e0 : n % 10 % 10 = n % 10 := by omega
    unfold digitChar; rw [e0]
  simp [pad4, parse4, digitVal?_digitChar _ h1, e2, e3, e4,
        digitVal?_digitChar _ (Nat.mod_lt _ (by norm_num) : n / 100 % 10 < 10),
        digitVal?_digitChar _ (Nat.mod_lt _ (by norm_num) : n / 10 % 10 < 10),
        digitVal?_digitChar _ (Nat.mod_lt _ (by norm_num) : n % 10 < 10)]
  omega

/-- The date-and-clock text shared by all six layouts: `2006-01-02`,
a separator, then `15:04:05`, rendered from a `GoTime`'s wall clock. -/
def renderCore (sep : Char) (t : GoTime) : List Char :=
  pad4 t.year ++ '-' :: (pad2 t.month ++ '-' :: (pad2 t.day ++
    sep :: (pad2 t.hour ++ ':' :: (pad2 t.minute ++ ':' :: pad2 t.second))))

/-- Well-formed wall-clock fields: exactly the ranges Go's parse-time
validation accepts, plus a four-digit year. -/
def GoTime.Wf (t : GoTime) : Prop :=
  1 ≤ t.month ∧ t.month ≤ 12 ∧ 1 ≤ t.day ∧ t.day ≤ daysInMonth t.year t.month ∧
  t.hour ≤ 23 ∧ t.minute ≤ 59 ∧ t.second ≤ 59 ∧ t.year ≤ 9999

instance (t : GoTime) : Decidable t.Wf := by unfold GoTime.Wf; infer_instance

theorem expectChar_cons_self (c : Char) (r : List Char) : expectChar c (c :: r) = some r := by
  simp [expectChar]

theorem parseCore_render (sep : Char) (t : GoTime) (rest : List Char) (hwf : t.Wf) :
    parseCore sep (renderCore sep t ++ rest) =
      some (t.year, t.month, t.day, t.hour, t.minute, t.second, rest) := by
  obtain ⟨h1, h2, h3, h4, h5, h6, h7, h8⟩ := hwf
  have hd : t.day < 100 := by
    have : daysInMonth t.year t.month ≤ 31 := by
      unfold daysInMonth; split <;> [split <;> omega; (split <;> omega)]
    omega
  unfold renderCore parseCore
  rw [List.append_assoc]
  rw [parse4_pad4 _ _ (by omega)]
  simp only [List.cons_append, expectChar_cons_self, List.append_assoc]
  rw [parse2_pad2 _ _ (by omega)]
  simp only [List.cons_append, expectChar_cons_self, List.append_assoc]
  rw [parse2_pad2 _ _ (by omega)]
  simp only [List.cons_append, expectChar_cons_self, List.append_assoc]
  rw [parse2_pad2 _ _ (by omega)]
  simp only [List.cons_append, expectChar_cons_self, List.append_assoc]
  rw [parse2_pad2 _ _ (by omega)]
  simp only [List.cons_append, expectChar_cons_self, List.append_assoc]
  rw [parse2_pad2 _ _ (by omega)]

theorem parseCore_sep_mismatch (sep sep' : Char) (t : GoTime) (rest : List Char)
    (hwf : t.Wf) (hne : sep' ≠ sep) :
    parseCore sep (renderCore sep' t ++ rest) = none := by
  obtain ⟨h1, h2, h3, h4, h5, h6, h7, h8⟩ := hwf
  have hd : t.day < 100 := by
    have : daysInMonth t.year t.month ≤ 31 := by
      unfold daysInMonth; split <;> [split <;> omega; (split <;> omega)]
    omega
  unfold renderCore parseCore
  rw [List.append_assoc]
  rw [parse4_pad4 _ _ (by omega)]
  simp only [List.cons_append, expectChar_cons_self, List.append_assoc]
  rw [parse2_pad2 _ _ (by omega)]
  simp only [List.cons_append, expectChar_cons_self, List.append_assoc]
  rw [parse2_pad2 _ _ (by omega)]
  simp [expectChar, hne]

theorem parseFracOpt_nil : parseFracOpt [] = some (0, []) := rfl

theorem parseFracOpt_nondot (c : Char) (r : List Char) (hc : ¬ (c = '.' ∨ c = ',')) :
    parseFracOpt (c :: r) = some (0, c :: r) := by
  cases r with
  | nil => rfl
  | cons c2 r2 => simp [parseFracOpt, hc]

theorem parseFracOpt_single (c : Char) : parseFracOpt [c] = some (0, [c]) := rfl

theorem digitChar_ne_quote (n : Nat) : digitChar n ≠ '"' := by
  unfold digitChar; split <;> decide

/-- No character of the list is a double quote. -/
def NoQuote (l : List Char) : Prop := ∀ c ∈ l, c ≠ '"'

theorem noQuote_nil : NoQuote [] := by intro c hc; cases hc

theorem noQuote_cons {c : Char} {l : List Char} (hc : c ≠ '"') (hl : NoQuote l) :
    NoQuote (c :: l) := by
  intro x hx
  rcases List.mem_cons.mp hx with h | h
  · exact h ▸ hc
  · exact hl x h

theorem noQuote_append {l1 l2 : List Char} (h1 : NoQuote l1) (h2 : NoQuote l2) :
    NoQuote (l1 ++ l2) := by
  intro x hx
  rcases List.mem_append.mp hx with h | h
  · exact h1 x h
  · exact h2 x h

theorem noQuote_pad2 (n : Nat) : NoQuote (pad2 n) :=
  noQuote_cons (digitChar_ne_quote _) (noQuote_cons (digitChar_ne_quote _) noQuote_nil)

theorem noQuote_pad4 (n : Nat) : NoQuote (pad4 n) :=
  noQuote_cons (digitChar_ne_quote _) <| noQuote_cons (digitChar_ne_quote _) <|
    noQuote_cons (digitChar_ne_quote _) <| noQuote_cons (digitChar_ne_quote _) noQuote_nil

theorem noQuote_pad6 (n : Nat) : NoQuote (pad6 n) :=
  noQuote_cons (digitChar_ne_quote _) <| noQuote_cons (digitChar_ne_quote _) <|
    noQuote_cons (digitChar_ne_quote _) <| noQuote_cons (digitChar_ne_quote _) <|
      noQuote_cons (digitChar_ne_quote _) <| noQuote_cons (digitChar_ne_quote _) noQuote_nil

theorem noQuote_renderCore (sep : Char) (hsep : sep ≠ '"') (t : GoTime) :
    NoQuote (renderCore sep t) :=
  noQuote_append (noQuote_pad4 _) <| noQuote_cons (by decide) <|
    noQuote_append (noQuote_pad2 _) <| noQuote_cons (by decide) <|
      noQuote_append (noQuote_pad2 _) <| noQuote_cons hsep <|
        noQuote_append (noQuote_pad2 _) <| noQuote_cons (by decide) <|
          noQuote_append (noQuote_pad2 _) <| noQuote_cons (by decide) <| noQuote_pad2 _

theorem dropWhile_eq_self_of_noquote {p : Char → Bool} {l : List Char}
    (h : ∀ c ∈ l, ¬ p c) : l.dropWhile p = l := by
  cases l with
  | nil => rfl
  | cons c r =>
    have := h c (List.mem_cons_self c r)
    simp [List.dropWhile, this]

theorem trimQuotes_eq_self {l : List Char} (h : NoQuote l) : trimQuotes l = l := by
  unfold trimQuotes
  have h1 : l.dropWhile (fun c => decide (c = '"')) = l := by
    apply dropWhile_eq_self_of_noquote
    intro c hc
    simp only [decide_eq_true_eq]
    exact h c hc
  rw [h1]
  have h2 : l.reverse.dropWhile (fun c => decide (c = '"')) = l.reverse := by
    apply dropWhile_eq_self_of_noquote
    intro c hc
    simp only [decide_eq_true_eq]
    exact h c (List.mem_reverse.mp hc)
  rw [h2, List.reverse_reverse]

theorem renderCore_length (sep : Char) (t : GoTime) : (renderCore sep t).length = 19 := by
  simp [renderCore, pad4, pad2]

/-- Format 1 text: space-separated, no zone. -/
def render1 (t : GoTime) : List Char := renderCore ' ' t

/-- Format 2 text: `T`-separated, no zone. -/
def render2 (t : GoTime) : List Char := renderCore 'T' t

/-- Format 3 text: `T`-separated with the literal UTC marker. -/
def render3 (t : GoTime) : List Char := renderCore 'T' t ++ ['Z']

/-- Format 4 text at UTC written as an explicit zero offset. -/
def render4utc (t : GoTime) : List Char :=
  renderCore 'T' t ++ '+' :: '0' :: '0' :: ':' :: '0' :: '0' :: []

/-- Format 5 text: space-separated with six fractional digits. -/
def render5 (t : GoTime) : List Char :=
  renderCore ' ' t ++ '.' :: pad6 (t.nanos / 1000)

/-- Format 6 text: `T`-separated with six fractional digits and the
literal UTC marker. -/
def render6 (t : GoTime) : List Char :=
  renderCore 'T' t ++ '.' :: (pad6 (t.nanos / 1000) ++ ['Z'])

theorem finishTime_of_wf (t : GoTime) (hwf : t.Wf) :
    finishTime t.year t.month t.day t.hour t.minute t.second t.nanos t.offsetMin = some t := by
  obtain ⟨h1, h2, h3, h4, h5, h6, h7, h8⟩ := hwf
  unfold finishTime
  rw [if_pos ⟨h1, h2, h3, h4, h5, h6, h7⟩]

theorem parseFmt1_render1 (t : GoTime) (hwf : t.Wf) (hns : t.nanos = 0)
    (hoff : t.offsetMin = 0) : parseFmt1 (render1 t) = some t := by
  obtain ⟨y, mo, d, h, mi, s, ns, off⟩ := t
  simp only at hns hoff
  subst hns hoff
  have hc := parseCore_render ' ' ⟨y, mo, d, h, mi, s, 0, 0⟩ [] hwf
  rw [List.append_nil] at hc
  simp only [parseFmt1, render1, hc, parseFracOpt_nil, if_pos]
  exact finishTime_of_wf ⟨y, mo, d, h, mi, s, 0, 0⟩ hwf

theorem parseFmt1_render5 (t : GoTime) (hwf : t.Wf) (hns : t.nanos = 0)
    (hoff : t.offsetMin = 0) : parseFmt1 (render5 t) = some t := by
  obtain ⟨y, mo, d, h, mi, s, ns, off⟩ := t
  simp only at hns hoff
  subst hns hoff
  have hc := parseCore_render ' ' ⟨y, mo, d, h, mi, s, 0, 0⟩ ('.' :: pad6 (0 / 1000)) hwf
  have hfrac : parseFracOpt ('.' :: pad6 (0 / 1000)) = some (0, []) := by decide
  simp only [parseFmt1, render5, hc, hfrac, if_pos]
  exact finishTime_of_wf ⟨y, mo, d, h, mi, s, 0, 0⟩ hwf

theorem parseFmt1_not_T (t : GoTime) (rest : List Char) (hwf : t.Wf) :
    parseFmt1 (renderCore 'T' t ++ rest) = none := by
  unfold parseFmt1
  rw [parseCore_sep_mismatch ' ' 'T' t rest hwf (by decide)]

theorem parseFmt2_render2 (t : GoTime) (hwf : t.Wf) (hns : t.nanos = 0)
    (hoff : t.offsetMin = 0) : parseFmt2 (render2 t) = some t := by
  obtain ⟨y, mo, d, h, mi, s, ns, off⟩ := t
  simp only at hns hoff
  subst hns hoff
  have hc := parseCore_render 'T' ⟨y, mo, d, h, mi, s, 0, 0⟩ [] hwf
  rw [List.append_nil] at hc
  simp only [parseFmt2, render2, hc, parseFracOpt_nil, if_pos]
  exact finishTime_of_wf ⟨y, mo, d, h, mi, s, 0, 0⟩ hwf

theorem parseFmt2_render3 (t : GoTime) (hwf : t.Wf) :
    parseFmt2 (render3 t) = none := by
  have hc := parseCore_render 'T' t ['Z'] hwf
  simp only [parseFmt2, render3, hc, parseFracOpt_single]
  simp

theorem parseFmt2_render4utc (t : GoTime) (hwf : t.Wf) :
    parseFmt2 (render4utc t) = none := by
  have hc := parseCore_render 'T' t ('+' :: '0' :: '0' :: ':' :: '0' :: '0' :: []) hwf
  simp only [parseFmt2, render4utc, hc, parseFracOpt_nondot '+' ['0', '0', ':', '0', '0'] (by decide)]
  simp

theorem parseFmt2_render6 (t : GoTime) (hwf : t.Wf) (hns : t.nanos = 0) :
    parseFmt2 (render6 t) = none := by
  obtain ⟨y, mo, d, h, mi, s, ns, off⟩ := t
  simp only at hns
  subst hns
  have hc := parseCore_render 'T' ⟨y, mo, d, h, mi, s, 0, off⟩
    ('.' :: (pad6 (0 / 1000) ++ ['Z'])) hwf
  have hfrac : parseFracOpt ('.' :: (pad6 (0 / 1000) ++ ['Z'])) = some (0, ['Z']) := by decide
  simp only [parseFmt2, render6, hc, hfrac]
  simp

theorem parseFmt3_render3 (t : GoTime) (hwf : t.Wf) (hns : t.nanos = 0)
    (hoff : t.offsetMin = 0) : parseFmt3 (render3 t) = some t := by
  obtain ⟨y, mo, d, h, mi, s, ns, off⟩ := t
  simp only at hns hoff
  subst hns hoff
  have hc := parseCore_render 'T' ⟨y, mo, d, h, mi, s, 0, 0⟩ ['Z'] hwf
  simp only [parseFmt3, render3, hc, parseFracOpt_single, expectChar_cons_self, if_pos]
  exact finishTime_of_wf ⟨y, mo, d, h, mi, s, 0, 0⟩ hwf

theorem parseFmt3_render4utc (t : GoTime) (hwf : t.Wf) :
    parseFmt3 (render4utc t) = none := by
  have hc := parseCore_render 'T' t ('+' :: '0' :: '0' :: ':' :: '0' :: '0' :: []) hwf
  simp only [parseFmt3, render4utc, hc, parseFracOpt_nondot '+' ['0', '0', ':', '0', '0'] (by decide)]
  simp [expectChar]

theorem parseFmt3_render6 (t : GoTime) (hwf : t.Wf) (hns : t.nanos = 0)
    (hoff : t.offsetMin = 0) : parseFmt3 (render6 t) = some t := by
  obtain ⟨y, mo, d, h, mi, s, ns, off⟩ := t
  simp only at hns hoff
  subst hns hoff
  have hc := parseCore_render 'T' ⟨y, mo, d, h, mi, s, 0, 0⟩
    ('.' :: (pad6 (0 / 1000) ++ ['Z'])) hwf
  have hfrac : parseFracOpt ('.' :: (pad6 (0 / 1000) ++ ['Z'])) = some (0, ['Z']) := by decide
  simp only [parseFmt3, render6, hc, hfrac, expectChar_cons_self, if_pos]
  exact finishTime_of_wf ⟨y, mo, d, h, mi, s, 0, 0⟩ hwf

theorem parseFmt4_render4utc (t : GoTime) (hwf : t.Wf) (hns : t.nanos = 0)
    (hoff : t.offsetMin = 0) : parseFmt4 (render4utc t) = some t := by
  obtain ⟨y, mo, d, h, mi, s, ns, off⟩ := t
  simp only at hns hoff
  subst hns hoff
  have hc := parseCore_render 'T' ⟨y, mo, d, h, mi, s, 0, 0⟩
    ('+' :: '0' :: '0' :: ':' :: '0' :: '0' :: []) hwf
  have hz : parseZoneColon ('+' :: '0' :: '0' :: ':' :: '0' :: '0' :: []) = some (0, []) := by
    decide
  simp only [parseFmt4, render4utc, hc, parseFracOpt_nondot '+' ['0', '0', ':', '0', '0'] (by decide), hz, if_pos]
  exact finishTime_of_wf ⟨y, mo, d, h, mi, s, 0, 0⟩ hwf

theorem ne_of_length {l m : List Char} (h : l.length ≠ m.length) : l ≠ m :=
  fun e => h (e ▸ rfl)

theorem parseAnyFormat_render1 (t : GoTime) (hwf : t.Wf) (hns : t.nanos = 0)
    (hoff : t.offsetMin = 0) : parseAnyFormat (render1 t) = some t := by
  simp only [parseAnyFormat, parseFmt1_render1 t hwf hns hoff]

theorem parseAnyFormat_render2 (t : GoTime) (hwf : t.Wf) (hns : t.nanos = 0)
    (hoff : t.offsetMin = 0) : parseAnyFormat (render2 t) = some t := by
  have h1 : parseFmt1 (render2 t) = none := by
    have := parseFmt1_not_T t [] hwf
    rw [List.append_nil] at this
    exact this
  simp only [parseAnyFormat, h1, parseFmt2_render2 t hwf hns hoff]

theorem parseAnyFormat_render3 (t : GoTime) (hwf : t.Wf) (hns : t.nanos = 0)
    (hoff : t.offsetMin = 0) : parseAnyFormat (render3 t) = some t := by
  have h1 : parseFmt1 (render3 t) = none := parseFmt1_not_T t ['Z'] hwf
  simp only [parseAnyFormat, h1, parseFmt2_render3 t hwf, parseFmt3_render3 t hwf hns hoff]

theorem parseAnyFormat_render4utc (t : GoTime) (hwf : t.Wf) (hns : t.nanos = 0)
    (hoff : t.offsetMin = 0) : parseAnyFormat (render4utc t) = some t := by
  have h1 : parseFmt1 (render4utc t) = none :=
    parseFmt1_not_T t ('+' :: '0' :: '0' :: ':' :: '0' :: '0' :: []) hwf
  simp only [parseAnyFormat, h1, parseFmt2_render4utc t hwf, parseFmt3_render4utc t hwf,
    parseFmt4_render4utc t hwf hns hoff]

theorem parseAnyFormat_render5 (t : GoTime) (hwf : t.Wf) (hns : t.nanos = 0)
    (hoff : t.offsetMin = 0) : parseAnyFormat (render5 t) = some t := by
  simp only [parseAnyFormat, parseFmt1_render5 t hwf hns hoff]

theorem parseAnyFormat_render6 (t : GoTime) (hwf : t.Wf) (hns : t.nanos = 0)
    (hoff : t.offsetMin = 0) : parseAnyFormat (render6 t) = some t := by
  have h1 : parseFmt1 (render6 t) = none :=
    parseFmt1_not_T t ('.' :: (pad6 (t.nanos / 1000) ++ ['Z'])) hwf
  simp only [parseAnyFormat, h1, parseFmt2_render6 t hwf hns,
    parseFmt3_render6 t hwf hns hoff]

theorem unmarshalJSON_str_parse (l : List Char) (hnq : NoQuote l) (hne : l ≠ [])
    (hnn : l ≠ "null".data) (t : GoTime) (hp : parseAnyFormat l = some t) :
    NHNCloudTime.unmarshalJSON (.str (String.mk l)) = .ok ⟨t⟩ := by
  unfold NHNCloudTime.unmarshalJSON
  dsimp only
  rw [trimQuotes_eq_self hnq, if_neg (not_or.mpr ⟨hnn, hne⟩), hp]

theorem nullData_length : ("null".data).length = 4 := rfl

theorem render1_length (t : GoTime) : (render1 t).length = 19 := renderCore_length ' ' t

theorem render2_length (t : GoTime) : (render2 t).length = 19 := renderCore_length 'T' t

theorem render3_length (t : GoTime) : (render3 t).length = 20 := by
  simp [render3, renderCore_length]

theorem render4utc_length (t : GoTime) : (render4utc t).length = 25 := by
  simp [render4utc, renderCore_length]

theorem render5_length (t : GoTime) : (render5 t).length = 26 := by
  simp [render5, renderCore_length, pad6]

theorem render6_length (t : GoTime) : (render6 t).length = 27 := by
  simp [render6, renderCore_length, pad6]

theorem noQuote_render1 (t : GoTime) : NoQuote (render1 t) :=
  noQuote_renderCore ' ' (by decide) t

theorem noQuote_render2 (t : GoTime) : NoQuote (render2 t) :=
  noQuote_renderCore 'T' (by decide) t

theorem noQuote_render3 (t : GoTime) : NoQuote (render3 t) :=
  noQuote_append (noQuote_renderCore 'T' (by decide) t)
    (noQuote_cons (by decide) noQuote_nil)

theorem noQuote_render4utc (t : GoTime) : NoQuote (render4utc t) :=
  noQuote_append (noQuote_renderCore 'T' (by decide) t) <|
    noQuote_cons (by decide) <| noQuote_cons (by decide) <| noQuote_cons (by decide) <|
      noQuote_cons (by decide) <| noQuote_cons (by decide) <|
        noQuote_cons (by decide) noQuote_nil

theorem noQuote_render5 (t : GoTime) : NoQuote (render5 t) :=
  noQuote_append (noQuote_renderCore ' ' (by decide) t) <|
    noQuote_cons (by decide) (noQuote_pad6 _)

theorem noQuote_render6 (t : GoTime) : NoQuote (render6 t) :=
  noQuote_append (noQuote_renderCore 'T' (by decide) t) <|
    noQuote_cons (by decide) <|
      noQuote_append (noQuote_pad6 _) (noQuote_cons (by decide) noQuote_nil)

theorem formatCanonical_eq_render1 (t : GoTime) : formatCanonical t = render1 t := rfl

theorem marshalJSON_of_not_zero (t : GoTime) (hz : ¬ t.isZero) :
    NHNCloudTime.marshalJSON ⟨t⟩ = .str (String.mk (render1 t)) := by
  unfold NHNCloudTime.marshalJSON
  rw [if_neg hz, formatCanonical_eq_render1]

/-- C2 (amended): decoding the six representations, with RFC3339 taken
at UTC offset, all yield the same value and the same canonical encoding. -/
theorem C2_timestamp_decode_encode (t : GoTime) (hwf : t.Wf) (hns : t.nanos = 0)
    (hoff : t.offsetMin = 0) (hz : ¬ t.isZero) :
    NHNCloudTime.unmarshalJSON (.str (String.mk (render1 t))) = .ok ⟨t⟩ ∧
    NHNCloudTime.unmarshalJSON (.str (String.mk (render2 t))) = .ok ⟨t⟩ ∧
    NHNCloudTime.unmarshalJSON (.str (String.mk (render3 t))) = .ok ⟨t⟩ ∧
    NHNCloudTime.unmarshalJSON (.str (String.mk (render4utc t))) = .ok ⟨t⟩ ∧
    NHNCloudTime.unmarshalJSON (.str (String.mk (render5 t))) = .ok ⟨t⟩ ∧
    NHNCloudTime.unmarshalJSON (.str (String.mk (render6 t))) = .ok ⟨t⟩ ∧
    NHNCloudTime.marshalJSON ⟨t⟩ = .str (String.mk (render1 t)) := by
  refine ⟨?_, ?_, ?_, ?_, ?_, ?_, marshalJSON_of_not_zero t hz⟩
  · exact unmarshalJSON_str_parse _ (noQuote_render1 t)
      (ne_of_length (by simp [render1_length]))
      (ne_of_length (by simp [render1_length, nullData_length]))
      t (parseAnyFormat_render1 t hwf hns hoff)
  · exact unmarshalJSON_str_parse _ (noQuote_render2 t)
      (ne_of_length (by simp [render2_length]))
      (ne_of_length (by simp [render2_length, nullData_length]))
      t (parseAnyFormat_render2 t hwf hns hoff)
  · exact unmarshalJSON_str_parse _ (noQuote_render3 t)
      (ne_of_length (by simp [render3_length]))
      (ne_of_length (by simp [render3_length, nullData_length]))
      t (parseAnyFormat_render3 t hwf hns hoff)
  · exact unmarshalJSON_str_parse _ (noQuote_render4utc t)
      (ne_of_length (by simp [render4utc_length]))
      (ne_of_length (by simp [render4utc_length, nullData_length]))
      t (parseAnyFormat_render4utc t hwf hns hoff)
  · exact unmarshalJSON_str_parse _ (noQuote_render5 t)
      (ne_of_length (by simp [render5_length]))
      (ne_of_length (by simp [render5_length, nullData_length]))
      t (parseAnyFormat_render5 t hwf hns hoff)
  · exact unmarshalJSON_str_parse _ (noQuote_render6 t)
      (ne_of_length (by simp [render6_length]))
      (ne_of_length (by simp [render6_length, nullData_length]))
      t (parseAnyFormat_render6 t hwf hns hoff)

theorem C2_timestamp_decode_encode_witness :
    GoTime.Wf ⟨2024, 2, 13, 10, 45, 57, 0, 0⟩ ∧
    ¬ GoTime.isZero ⟨2024, 2, 13, 10, 45, 57, 0, 0⟩ ∧
    (NHNCloudTime.unmarshalJSON (.str (String.mk (render1 ⟨2024, 2, 13, 10, 45, 57, 0, 0⟩))) =
        .ok ⟨⟨2024, 2, 13, 10, 45, 57, 0, 0⟩⟩ ∧
      NHNCloudTime.unmarshalJSON (.str (String.mk (render2 ⟨2024, 2, 13, 10, 45, 57, 0, 0⟩))) =
        .ok ⟨⟨2024, 2, 13, 10, 45, 57, 0, 0⟩⟩ ∧
      NHNCloudTime.unmarshalJSON (.str (String.mk (render3 ⟨2024, 2, 13, 10, 45, 57, 0, 0⟩))) =
        .ok ⟨⟨2024, 2, 13, 10, 45, 57, 0, 0⟩⟩ ∧
      NHNCloudTime.unmarshalJSON (.str (String.mk (render4utc ⟨2024, 2, 13, 10, 45, 57, 0, 0⟩))) =
        .ok ⟨⟨2024, 2, 13, 10, 45, 57, 0, 0⟩⟩ ∧
      NHNCloudTime.unmarshalJSON (.str (String.mk (render5 ⟨2024, 2, 13, 10, 45, 57, 0, 0⟩))) =
        .ok ⟨⟨2024, 2, 13, 10, 45, 57, 0, 0⟩⟩ ∧
      NHNCloudTime.unmarshalJSON (.str (String.mk (render6 ⟨2024, 2, 13, 10, 45, 57, 0, 0⟩))) =
        .ok ⟨⟨2024, 2, 13, 10, 45, 57, 0, 0⟩⟩ ∧
      NHNCloudTime.marshalJSON ⟨⟨2024, 2, 13, 10, 45, 57, 0, 0⟩⟩ =
        .str (String.mk (render1 ⟨2024, 2, 13, 10, 45, 57, 0, 0⟩))) :=
  ⟨by decide, by decide,
    C2_timestamp_decode_encode ⟨2024, 2, 13, 10, 45, 57, 0, 0⟩ (by decide) rfl rfl (by decide)⟩

theorem C2_counterexample :
    GoTime.sameInstant ⟨2024, 2, 13, 19, 45, 57, 0, 540⟩ ⟨2024, 2, 13, 10, 45, 57, 0, 0⟩ ∧
    NHNCloudTime.unmarshalJSON (.str "2024-02-13T19:45:57+09:00") =
      .ok ⟨⟨2024, 2, 13, 19, 45, 57, 0, 540⟩⟩ ∧
    NHNCloudTime.unmarshalJSON (.str "2024-02-13 10:45:57") =
      .ok ⟨⟨2024, 2, 13, 10, 45, 57, 0, 0⟩⟩ ∧
    (⟨2024, 2, 13, 19, 45, 57, 0, 540⟩ : GoTime) ≠ ⟨2024, 2, 13, 10, 45, 57, 0, 0⟩ ∧
    NHNCloudTime.marshalJSON ⟨⟨2024, 2, 13, 19, 45, 57, 0, 540⟩⟩ = .str "2024-02-13 19:45:57" ∧
    NHNCloudTime.marshalJSON ⟨⟨2024, 2, 13, 10, 45, 57, 0, 0⟩⟩ = .str "2024-02-13 10:45:57" ∧
    ("2024-02-13 19:45:57" : String) ≠ "2024-02-13 10:45:57" := by
  refine ⟨by decide, rfl, rfl, by decide, rfl, rfl, by decide⟩

theorem flexVPC_decode_obj (fields : List (String × Json)) (i n : String)
    (hid : Json.lookupKey fields "id" = some (.str i))
    (hname : Json.lookupKey fields "name" = some (.str n)) :
    FlexibleVPCInfo.unmarshalJSON (.obj fields) = .ok ⟨i, n⟩ := by
  simp [FlexibleVPCInfo.unmarshalJSON, decodeIdNameObject, hid, hname, decodeStringField,
    Bind.bind, Except.bind, Except.map]

theorem flexSubnet_decode_obj (fields : List (String × Json)) (i n : String)
    (hid : Json.lookupKey fields "id" = some (.str i))
    (hname : Json.lookupKey fields "name" = some (.str n)) :
    FlexibleSubnetInfo.unmarshalJSON (.obj fields) = .ok ⟨i, n⟩ := by
  simp [FlexibleSubnetInfo.unmarshalJSON, decodeIdNameObject, hid, hname, decodeStringField,
    Bind.bind, Except.bind, Except.map]

theorem flexVPC_marshal_obj (i n : String) (hn : n ≠ "") :
    ∃ out, FlexibleVPCInfo.marshalJSON ⟨i, n⟩ = .obj out ∧
      mapStr out "id" = i ∧ mapStr out "name" = n := by
  unfold FlexibleVPCInfo.marshalJSON
  rw [if_neg (by simp [hn])]
  by_cases hi : i = ""
  · subst hi
    refine ⟨[("name", .str n)], by simp [hn], ?_, ?_⟩ <;>
      simp [mapStr, Json.lookupKey, List.lookup]
  · refine ⟨[("id", .str i), ("name", .str n)], by simp [hi, hn], ?_, ?_⟩ <;>
      simp [mapStr, Json.lookupKey, List.lookup]

theorem flexSubnet_marshal_obj (i n : String) (hn : n ≠ "") :
    ∃ out, FlexibleSubnetInfo.marshalJSON ⟨i, n⟩ = .obj out ∧
      mapStr out "id" = i ∧ mapStr out "name" = n := by
  unfold FlexibleSubnetInfo.marshalJSON
  rw [if_neg (by simp [hn])]
  by_cases hi : i = ""
  · subst hi
    refine ⟨[("name", .str n)], by simp [hn], ?_, ?_⟩ <;>
      simp [mapStr, Json.lookupKey, List.lookup]
  · refine ⟨[("id", .str i), ("name", .str n)], by simp [hi, hn], ?_, ?_⟩ <;>
      simp [mapStr, Json.lookupKey, List.lookup]

/-- C3: flexible-reference round trips: a non-empty bare-ID string decodes
to an ID-only reference and re-encodes to exactly the same string; an
object input with string `id` and non-empty string `name` decodes to the
pair and re-encodes to an object carrying the same `id` and `name`.
Both the VPC and the subnet variant are covered. -/
theorem C3_flexible_reference_roundtrip :
    (∀ s : String, s ≠ "" →
      FlexibleVPCInfo.unmarshalJSON (.str s) = .ok ⟨s, ""⟩ ∧
      FlexibleVPCInfo.marshalJSON ⟨s, ""⟩ = .str s) ∧
    (∀ s : String, s ≠ "" →
      FlexibleSubnetInfo.unmarshalJSON (.str s) = .ok ⟨s, ""⟩ ∧
      FlexibleSubnetInfo.marshalJSON ⟨s, ""⟩ = .str s) ∧
    (∀ (fields : List (String × Json)) (i n : String), n ≠ "" →
      Json.lookupKey fields "id" = some (.str i) →
      Json.lookupKey fields "name" = some (.str n) →
      FlexibleVPCInfo.unmarshalJSON (.obj fields) = .ok ⟨i, n⟩ ∧
      ∃ out, FlexibleVPCInfo.marshalJSON ⟨i, n⟩ = .obj out ∧
        mapStr out "id" = i ∧ mapStr out "name" = n) ∧
    (∀ (fields : List (String × Json)) (i n : String), n ≠ "" →
      Json.lookupKey fields "id" = some (.str i) →
      Json.lookupKey fields "name" = some (.str n) →
      FlexibleSubnetInfo.unmarshalJSON (.obj fields) = .ok ⟨i, n⟩ ∧
      ∃ out, FlexibleSubnetInfo.marshalJSON ⟨i, n⟩ = .obj out ∧
        mapStr out "id" = i ∧ mapStr out "name" = n) := by
  refine ⟨?_, ?_, ?_, ?_⟩
  · intro s hs
    exact ⟨rfl, by simp [FlexibleVPCInfo.marshalJSON, hs]⟩
  · intro s hs
    exact ⟨rfl, by simp [FlexibleSubnetInfo.marshalJSON, hs]⟩
  · intro fields i n hn hid hname
    exact ⟨flexVPC_decode_obj fields i n hid hname, flexVPC_marshal_obj i n hn⟩
  · intro fields i n hn hid hname
    exact ⟨flexSubnet_decode_obj fields i n hid hname, flexSubnet_marshal_obj i n hn⟩

theorem C3_flexible_reference_roundtrip_witness :
    (FlexibleVPCInfo.unmarshalJSON (.str "vpc-1") = .ok ⟨"vpc-1", ""⟩ ∧
      FlexibleVPCInfo.marshalJSON ⟨"vpc-1", ""⟩ = .str "vpc-1") ∧
    (FlexibleSubnetInfo.unmarshalJSON (.obj [("id", .str "sb-1"), ("name", .str "mysub")]) =
        .ok ⟨"sb-1", "mysub"⟩ ∧
      ∃ out, FlexibleSubnetInfo.marshalJSON ⟨"sb-1", "mysub"⟩ = .obj out ∧
        mapStr out "id" = "sb-1" ∧ mapStr out "name" = "mysub") :=
  ⟨C3_flexible_reference_roundtrip.1 "vpc-1" (by decide),
   C3_flexible_reference_roundtrip.2.2.2 [("id", .str "sb-1"), ("name", .str "mysub")]
     "sb-1" "mysub" (by decide) rfl rfl⟩

theorem flexVPC_decode_obj_general (fields : List (String × Json))
    (hid : ∀ v, Json.lookupKey fields "id" = some v → v.isStr ∨ v = .null)
    (hname : ∀ v, Json.lookupKey fields "name" = some v → v.isStr ∨ v = .null) :
    FlexibleVPCInfo.unmarshalJSON (.obj fields) =
      .ok ⟨(match Json.lookupKey fields "id" with | some (.str s) => s | _ => ""),
           (match Json.lookupKey fields "name" with | some (.str s) => s | _ => "")⟩ := by
  have hidok : decodeStringField "id" ((Json.lookupKey fields "id").getD .null) =
      .ok (match Json.lookupKey fields "id" with | some (.str s) => s | _ => "") := by
    cases hv : Json.lookupKey fields "id" with
    | none => rfl
    | some v =>
      rcases hid v hv with h | h
      · cases v <;> simp_all [Json.isStr, decodeStringField]
      · subst h; rfl
  have hnameok : decodeStringField "name" ((Json.lookupKey fields "name").getD .null) =
      .ok (match Json.lookupKey fields "name" with | some (.str s) => s | _ => "") := by
    cases hv : Json.lookupKey fields "name" with
    | none => rfl
    | some v =>
      rcases hname v hv with h | h
      · cases v <;> simp_all [Json.isStr, decodeStringField]
      · subst h; rfl
  simp [FlexibleVPCInfo.unmarshalJSON, decodeIdNameObject, hidok, hnameok,
    Bind.bind, Except.bind, Except.map]

theorem flexSubnet_decode_obj_general (fields : List (String × Json))
    (hid : ∀ v, Json.lookupKey fields "id" = some v → v.isStr ∨ v = .null)
    (hname : ∀ v, Json.lookupKey fields "name" = some v → v.isStr ∨ v = .null) :
    FlexibleSubnetInfo.unmarshalJSON (.obj fields) =
      .ok ⟨(match Json.lookupKey fields "id" with | some (.str s) => s | _ => ""),
           (match Json.lookupKey fields "name" with | some (.str s) => s | _ => "")⟩ := by
  have hidok : decodeStringField "id" ((Json.lookupKey fields "id").getD .null) =
      .ok (match Json.lookupKey fields "id" with | some (.str s) => s | _ => "") := by
    cases hv : Json.lookupKey fields "id" with
    | none => rfl
    | some v =>
      rcases hid v hv with h | h
      · cases v <;> simp_all [Json.isStr, decodeStringField]
      · subst h; rfl
  have hnameok : decodeStringField "name" ((Json.lookupKey fields "name").getD .null) =
      .ok (match Json.lookupKey fields "name" with | some (.str s) => s | _ => "") := by
    cases hv : Json.lookupKey fields "name" with
    | none => rfl
    | some v =>
      rcases hname v hv with h | h
      · cases v <;> simp_all [Json.isStr, decodeStringField]
      · subst h; rfl
  simp [FlexibleSubnetInfo.unmarshalJSON, decodeIdNameObject, hidok, hnameok,
    Bind.bind, Except.bind, Except.map]

theorem flexVPC_decode_obj_bad_id (fields : List (String × Json)) (v : Json)
    (hv : Json.lookupKey fields "id" = some v) (h1 : v.isStr = false) (h2 : v ≠ .null) :
    FlexibleVPCInfo.unmarshalJSON (.obj fields) = .error "id" := by
  have : decodeStringField "id" ((Json.lookupKey fields "id").getD .null) = .error "id" := by
    cases v <;> simp_all [Json.isStr, decodeStringField]
  simp [FlexibleVPCInfo.unmarshalJSON, decodeIdNameObject, this,
    Bind.bind, Except.bind, Except.map]

theorem flexSubnet_decode_obj_bad_id (fields : List (String × Json)) (v : Json)
    (hv : Json.lookupKey fields "id" = some v) (h1 : v.isStr = false) (h2 : v ≠ .null) :
    FlexibleSubnetInfo.unmarshalJSON (.obj fields) = .error "id" := by
  have : decodeStringField "id" ((Json.lookupKey fields "id").getD .null) = .error "id" := by
    cases v <;> simp_all [Json.isStr, decodeStringField]
  simp [FlexibleSubnetInfo.unmarshalJSON, decodeIdNameObject, this,
    Bind.bind, Except.bind, Except.map]

theorem flexVPC_decode_obj_bad_name (fields : List (String × Json)) (v : Json)
    (hv : Json.lookupKey fields "name" = some v) (h1 : v.isStr = false) (h2 : v ≠ .null) :
    ∃ e, FlexibleVPCInfo.unmarshalJSON (.obj fields) = .error e := by
  have hn : decodeStringField "name" ((Json.lookupKey fields "name").getD .null) =
      .error "name" := by
    cases v <;> simp_all [Json.isStr, decodeStringField]
  cases hi : decodeStringField "id" ((Json.lookupKey fields "id").getD .null) with
  | error e =>
    exact ⟨e, by simp [FlexibleVPCInfo.unmarshalJSON, decodeIdNameObject, hi,
      Bind.bind, Except.bind, Except.map]⟩
  | ok i =>
    exact ⟨"name", by simp [FlexibleVPCInfo.unmarshalJSON, decodeIdNameObject, hi, hn,
      Bind.bind, Except.bind, Except.map]⟩

theorem flexSubnet_decode_obj_bad_name (fields : List (String × Json)) (v : Json)
    (hv : Json.lookupKey fields "name" = some v) (h1 : v.isStr = false) (h2 : v ≠ .null) :
    ∃ e, FlexibleSubnetInfo.unmarshalJSON (.obj fields) = .error e := by
  have hn : decodeStringField "name" ((Json.lookupKey fields "name").getD .null) =
      .error "name" := by
    cases v <;> simp_all [Json.isStr, decodeStringField]
  cases hi : decodeStringField "id" ((Json.lookupKey fields "id").getD .null) with
  | error e =>
    exact ⟨e, by simp [FlexibleSubnetInfo.unmarshalJSON, decodeIdNameObject, hi,
      Bind.bind, Except.bind, Except.map]⟩
  | ok i =>
    exact ⟨"name", by simp [FlexibleSubnetInfo.unmarshalJSON, decodeIdNameObject, hi, hn,
      Bind.bind, Except.bind, Except.map]⟩

/-- C5 (amended): the flexible decoders fail on numbers, booleans and
arrays; an object whose present `id` and `name` entries are strings (or
`null`) decodes successfully, with absent entries left unset; but an
object whose `id` entry — or whose `name` entry — is present with a
non-string, non-null type also fails.  Both the VPC and the subnet
variant are covered. -/
theorem C5_flexible_decode_error_policy :
    (∀ b, ∃ e, FlexibleVPCInfo.unmarshalJSON (.bool b) = .error e) ∧
    (∀ n, ∃ e, FlexibleVPCInfo.unmarshalJSON (.num n) = .error e) ∧
    (∀ l, ∃ e, FlexibleVPCInfo.unmarshalJSON (.arr l) = .error e) ∧
    (∀ fields : List (String × Json),
      (∀ v, Json.lookupKey fields "id" = some v → v.isStr ∨ v = .null) →
      (∀ v, Json.lookupKey fields "name" = some v → v.isStr ∨ v = .null) →
      FlexibleVPCInfo.unmarshalJSON (.obj fields) =
        .ok ⟨(match Json.lookupKey fields "id" with | some (.str s) => s | _ => ""),
             (match Json.lookupKey fields "name" with | some (.str s) => s | _ => "")⟩) ∧
    (∀ (fields : List (String × Json)) (v : Json),
      Json.lookupKey fields "id" = some v → v.isStr = false → v ≠ .null →
      FlexibleVPCInfo.unmarshalJSON (.obj fields) = .error "id") ∧
    (∀ (fields : List (String × Json)) (v : Json),
      Json.lookupKey fields "name" = some v → v.isStr = false → v ≠ .null →
      ∃ e, FlexibleVPCInfo.unmarshalJSON (.obj fields) = .error e) ∧
    (∀ b, ∃ e, FlexibleSubnetInfo.unmarshalJSON (.bool b) = .error e) ∧
    (∀ n, ∃ e, FlexibleSubnetInfo.unmarshalJSON (.num n) = .error e) ∧
    (∀ l, ∃ e, FlexibleSubnetInfo.unmarshalJSON (.arr l) = .error e) ∧
    (∀ fields : List (String × Json),
      (∀ v, Json.lookupKey fields "id" = some v → v.isStr ∨ v = .null) →
      (∀ v, Json.lookupKey fields "name" = some v → v.isStr ∨ v = .null) →
      FlexibleSubnetInfo.unmarshalJSON (.obj fields) =
        .ok ⟨(match Json.lookupKey fields "id" with | some (.str s) => s | _ => ""),
             (match Json.lookupKey fields "name" with | some (.str s) => s | _ => "")⟩) ∧
    (∀ (fields : List (String × Json)) (v : Json),
      Json.lookupKey fields "id" = some v → v.isStr = false → v ≠ .null →
      FlexibleSubnetInfo.unmarshalJSON (.obj fields) = .error "id") ∧
    (∀ (fields : List (String × Json)) (v : Json),
      Json.lookupKey fields "name" = some v → v.isStr = false → v ≠ .null →
      ∃ e, FlexibleSubnetInfo.unmarshalJSON (.obj fields) = .error e) :=
  ⟨fun _ => ⟨"object", rfl⟩, fun _ => ⟨"object", rfl⟩, fun _ => ⟨"object", rfl⟩,
   flexVPC_decode_obj_general, flexVPC_decode_obj_bad_id, flexVPC_decode_obj_bad_name,
   fun _ => ⟨"object", rfl⟩, fun _ => ⟨"object", rfl⟩, fun _ => ⟨"object", rfl⟩,
   flexSubnet_decode_obj_general, flexSubnet_decode_obj_bad_id,
   flexSubnet_decode_obj_bad_name⟩

theorem C5_flexible_decode_error_policy_witness :
    FlexibleVPCInfo.unmarshalJSON (.obj [("name", .str "n1")]) = .ok ⟨"", "n1"⟩ ∧
    FlexibleSubnetInfo.unmarshalJSON (.obj [("id", .arr []), ("name", .str "n1")]) =
      .error "id" ∧
    (∃ e, FlexibleVPCInfo.unmarshalJSON (.obj [("id", .str "a"), ("name", .num 5)]) =
      .error e) ∧
    (∃ e, FlexibleSubnetInfo.unmarshalJSON (.obj [("id", .str "a"), ("name", .num 5)]) =
      .error e) :=
  ⟨C5_flexible_decode_error_policy.2.2.2.1 [("name", .str "n1")]
      (by intro v hv; cases hv) (by intro v hv; left; cases Option.some.inj hv; rfl),
   C5_flexible_decode_error_policy.2.2.2.2.2.2.2.2.2.2.1
      [("id", .arr []), ("name", .str "n1")]
      (.arr []) rfl rfl (by intro h; cases h),
   C5_flexible_decode_error_policy.2.2.2.2.2.1 [("id", .str "a"), ("name", .num 5)]
      (.num 5) rfl rfl (fun h => Json.noConfusion h),
   C5_flexible_decode_error_policy.2.2.2.2.2.2.2.2.2.2.2
      [("id", .str "a"), ("name", .num 5)]
      (.num 5) rfl rfl (fun h => Json.noConfusion h)⟩

/-- C5 counterexample: a well-formed JSON object (so neither an invalid
string nor an invalid object in the claim's sense) on which the flexible
decoder nevertheless fails, because its `id` entry is a number. -/
theorem C5_counterexample :
    Json.isObj (Json.obj [("id", Json.num 5)]) = true ∧
    FlexibleVPCInfo.unmarshalJSON (Json.obj [("id", Json.num 5)]) = .error "id" ∧
    FlexibleSubnetInfo.unmarshalJSON (Json.obj [("id", Json.num 5)]) = .error "id" :=
  ⟨rfl, rfl, rfl⟩

/-- C6 (amended): for a successfully decoded flexible reference from a
non-null payload, the name is populated only when the source was the
object form (a bare string always leaves the name empty); the id is
populated whenever the source is a non-empty bare string, or an object
whose `id` entry is a non-empty string.  Both variants are covered. -/
theorem C6_flexible_reference_invariant :
    (∀ (j : Json) (v : FlexibleVPCInfo), j ≠ .null →
      FlexibleVPCInfo.unmarshalJSON j = .ok v →
      (v.Name ≠ "" → j.isObj = true) ∧ (∀ s, j = .str s → v = ⟨s, ""⟩)) ∧
    (∀ (s : String) (v : FlexibleVPCInfo), s ≠ "" →
      FlexibleVPCInfo.unmarshalJSON (.str s) = .ok v → v.ID ≠ "") ∧
    (∀ (fields : List (String × Json)) (i : String) (v : FlexibleVPCInfo), i ≠ "" →
      Json.lookupKey fields "id" = some (.str i) →
      FlexibleVPCInfo.unmarshalJSON (.obj fields) = .ok v → v.ID ≠ "") ∧
    (∀ (j : Json) (v : FlexibleSubnetInfo), j ≠ .null →
      FlexibleSubnetInfo.unmarshalJSON j = .ok v →
      (v.Name ≠ "" → j.isObj = true) ∧ (∀ s, j = .str s → v = ⟨s, ""⟩)) ∧
    (∀ (s : String) (v : FlexibleSubnetInfo), s ≠ "" →
      FlexibleSubnetInfo.unmarshalJSON (.str s) = .ok v → v.ID ≠ "") ∧
    (∀ (fields : List (String × Json)) (i : String) (v : FlexibleSubnetInfo), i ≠ "" →
      Json.lookupKey fields "id" = some (.str i) →
      FlexibleSubnetInfo.unmarshalJSON (.obj fields) = .ok v → v.ID ≠ "") := by
  refine ⟨?_, ?_, ?_, ?_, ?_, ?_⟩
  · intro j v hnull hok
    constructor
    · intro hname
      cases j with
      | null => exact absurd rfl hnull
      | str s =>
        exfalso
        have := Except.ok.inj hok
        rw [← this] at hname
        exact hname rfl
      | obj f => rfl
      | bool b => exact absurd hok (by simp [FlexibleVPCInfo.unmarshalJSON,
          decodeIdNameObject, Except.map])
      | num n => exact absurd hok (by simp [FlexibleVPCInfo.unmarshalJSON,
          decodeIdNameObject, Except.map])
      | arr l => exact absurd hok (by simp [FlexibleVPCInfo.unmarshalJSON,
          decodeIdNameObject, Except.map])
    · intro s hj
      subst hj
      exact (Except.ok.inj hok).symm
  · intro s v hs hok
    have := Except.ok.inj hok
    rw [← this]
    exact hs
  · intro fields i v hi hid hok
    have hbranch :
        decodeStringField "id" ((Json.lookupKey fields "id").getD .null) = .ok i := by
      rw [hid]; rfl
    cases hname : decodeStringField "name" ((Json.lookupKey fields "name").getD .null) with
    | error e =>
      exfalso
      revert hok
      simp [FlexibleVPCInfo.unmarshalJSON, decodeIdNameObject, hbranch, hname,
        Bind.bind, Except.bind, Except.map]
    | ok n =>
      have : v = ⟨i, n⟩ := by
        have h2 := hok
        simp [FlexibleVPCInfo.unmarshalJSON, decodeIdNameObject, hbranch, hname,
          Bind.bind, Except.bind, Except.map] at h2
        exact h2.symm
      rw [this]
      exact hi
  · intro j v hnull hok
    constructor
    · intro hname
      cases j with
      | null => exact absurd rfl hnull
      | str s =>
        exfalso
        have := Except.ok.inj hok
        rw [← this] at hname
        exact hname rfl
      | obj f => rfl
      | bool b => exact absurd hok (by simp [FlexibleSubnetInfo.unmarshalJSON,
          decodeIdNameObject, Except.map])
      | num n => exact absurd hok (by simp [FlexibleSubnetInfo.unmarshalJSON,
          decodeIdNameObject, Except.map])
      | arr l => exact absurd hok (by simp [FlexibleSubnetInfo.unmarshalJSON,
          decodeIdNameObject, Except.map])
    · intro s hj
      subst hj
      exact (Except.ok.inj hok).symm
  · intro s v hs hok
    have := Except.ok.inj hok
    rw [← this]
    exact hs
  · intro fields i v hi hid hok
    have hbranch :
        decodeStringField "id" ((Json.lookupKey fields "id").getD .null) = .ok i := by
      rw [hid]; rfl
    cases hname : decodeStringField "name" ((Json.lookupKey fields "name").getD .null) with
    | error e =>
      exfalso
      revert hok
      simp [FlexibleSubnetInfo.unmarshalJSON, decodeIdNameObject, hbranch, hname,
        Bind.bind, Except.bind, Except.map]
    | ok n =>
      have : v = ⟨i, n⟩ := by
        have h2 := hok
        simp [FlexibleSubnetInfo.unmarshalJSON, decodeIdNameObject, hbranch, hname,
          Bind.bind, Except.bind, Except.map] at h2
        exact h2.symm
      rw [this]
      exact hi

theorem C6_flexible_reference_invariant_witness :
    ((⟨"vpc-1", ""⟩ : FlexibleVPCInfo).Name ≠ "" → Json.isObj (.str "vpc-1") = true) ∧
    (∀ s, Json.str "vpc-1" = .str s → (⟨"vpc-1", ""⟩ : FlexibleVPCInfo) = ⟨s, ""⟩) ∧
    (⟨"vpc-1", ""⟩ : FlexibleVPCInfo).ID ≠ "" ∧
    (⟨"sb-9", "nm"⟩ : FlexibleSubnetInfo).ID ≠ "" :=
  ⟨(C6_flexible_reference_invariant.1 (.str "vpc-1") ⟨"vpc-1", ""⟩ (by intro h; cases h) rfl).1,
   (C6_flexible_reference_invariant.1 (.str "vpc-1") ⟨"vpc-1", ""⟩ (by intro h; cases h) rfl).2,
   C6_flexible_reference_invariant.2.1 "vpc-1" ⟨"vpc-1", ""⟩ (by decide) rfl,
   C6_flexible_reference_invariant.2.2.2.2.2 [("id", .str "sb-9"), ("name", .str "nm")]
     "sb-9" ⟨"sb-9", "nm"⟩ (by decide) rfl rfl⟩

/-- C6 counterexample: the empty JSON object is a non-null payload from
which the decoder succeeds, yet the resulting id field is empty,
refuting the claim that the id is always populated. -/
theorem C6_counterexample :
    (Json.obj [] = Json.null → False) ∧
    FlexibleVPCInfo.unmarshalJSON (Json.obj []) = .ok ⟨"", ""⟩ ∧
    FlexibleSubnetInfo.unmarshalJSON (Json.obj []) = .ok ⟨"", ""⟩ :=
  ⟨fun h => Json.noConfusion h, rfl, rfl⟩

/-- C4: decoding JSON null or the empty string yields the unset
timestamp without error; a zero timestamp always encodes as JSON null;
and no timestamp ever encodes as an empty string. -/
theorem C4_timestamp_null_handling :
    NHNCloudTime.unmarshalJSON Json.null = .ok ⟨GoTime.zero⟩ ∧
    NHNCloudTime.unmarshalJSON (.str "") = .ok ⟨GoTime.zero⟩ ∧
    (∀ ct : NHNCloudTime, ct.time.isZero → NHNCloudTime.marshalJSON ct = Json.null) ∧
    (∀ (ct : NHNCloudTime) (s : String), NHNCloudTime.marshalJSON ct = .str s → s ≠ "") := by
  refine ⟨rfl, rfl, ?_, ?_⟩
  · intro ct hz
    unfold NHNCloudTime.marshalJSON
    rw [if_pos hz]
  · intro ct s h
    unfold NHNCloudTime.marshalJSON at h
    by_cases hz : ct.time.isZero
    · rw [if_pos hz] at h
      exact absurd h (by simp)
    · rw [if_neg hz] at h
      have hd : formatCanonical ct.time = s.data :=
        congrArg String.data (Json.str.inj h)
      intro he
      subst he
      have hlen := congrArg List.length hd
      rw [formatCanonical_eq_render1, render1_length] at hlen
      exact absurd hlen (by decide)

theorem C4_timestamp_null_handling_witness :
    NHNCloudTime.marshalJSON ⟨GoTime.zero⟩ = Json.null ∧
    ("2024-02-13 10:45:57" : String) ≠ "" :=
  ⟨C4_timestamp_null_handling.2.2.1 ⟨GoTime.zero⟩ (by decide),
   C4_timestamp_null_handling.2.2.2 ⟨⟨2024, 2, 13, 10, 45, 57, 0, 0⟩⟩
     "2024-02-13 10:45:57" rfl⟩

theorem strictDecode_ok_fields (f : List (String × Json)) (rt : RoutingTable)
    (h : RoutingTable.strictDecode f = .ok rt) :
    decStr f "id" = .ok rt.ID ∧ decStr f "name" = .ok rt.Name ∧
    decBool f "default_table" = .ok rt.DefaultTable ∧
    decBool f "distributed" = .ok rt.Distributed ∧
    decStr f "gateway_id" = .ok rt.GatewayID ∧
    decStr f "gateway_name" = .ok rt.GatewayName ∧
    decStr f "tenant_id" = .ok rt.TenantID ∧ decStr f "state" = .ok rt.State ∧
    decTime f "create_time" = .ok rt.CreateTime ∧ decVPCs f "vpcs" = .ok rt.VPCs ∧
    decSubnets f "subnets" = .ok rt.Subnets ∧ decRoutes f "routes" = .ok rt.Routes := by
  unfold RoutingTable.strictDecode at h
  obtain ⟨id, h1, h⟩ := exceptBind_ok h
  obtain ⟨name, h2, h⟩ := exceptBind_ok h
  obtain ⟨deft, h3, h⟩ := exceptBind_ok h
  obtain ⟨dist, h4, h⟩ := exceptBind_ok h
  obtain ⟨gwid, h5, h⟩ := exceptBind_ok h
  obtain ⟨gwname, h6, h⟩ := exceptBind_ok h
  obtain ⟨tid, h7, h⟩ := exceptBind_ok h
  obtain ⟨st, h8, h⟩ := exceptBind_ok h
  obtain ⟨ct, h9, h⟩ := exceptBind_ok h
  obtain ⟨vpcs, h10, h⟩ := exceptBind_ok h
  obtain ⟨subnets, h11, h⟩ := exceptBind_ok h
  obtain ⟨routes, h12, h⟩ := exceptBind_ok h
  have e := Except.ok.inj h
  subst e
  exact ⟨h1, h2, h3, h4, h5, h6, h7, h8, h9, h10, h11, h12⟩

/-- The field keyed `k` is absent or has a non-string JSON type. -/
def missingOrNotStr (f : List (String × Json)) (k : String) : Prop :=
  Json.lookupKey f k = none ∨ ∃ v, Json.lookupKey f k = some v ∧ v.isStr = false

/-- The field keyed `k` is absent or has a non-boolean JSON type. -/
def missingOrNotBool (f : List (String × Json)) (k : String) : Prop :=
  Json.lookupKey f k = none ∨
    ∃ v, Json.lookupKey f k = some v ∧ (∀ b, v ≠ .bool b)

/-- The field keyed `k` is absent or has a non-array JSON type. -/
def missingOrNotArr (f : List (String × Json)) (k : String) : Prop :=
  Json.lookupKey f k = none ∨ ∃ v, Json.lookupKey f k = some v ∧ v.isArr = false

theorem decStr_ok_default {f : List (String × Json)} {k : String} {v : String}
    (hmk : missingOrNotStr f k) (hok : decStr f k = .ok v) : v = "" := by
  unfold decStr at hok
  rcases hmk with h | ⟨j, hj, hns⟩
  · rw [h] at hok
    exact (Except.ok.inj hok).symm
  · rw [hj] at hok
    cases j <;> simp_all [Json.isStr]

theorem decBool_ok_default {f : List (String × Json)} {k : String} {v : Bool}
    (hmk : missingOrNotBool f k) (hok : decBool f k = .ok v) : v = false := by
  unfold decBool at hok
  rcases hmk with h | ⟨j, hj, hns⟩
  · rw [h] at hok
    exact (Except.ok.inj hok).symm
  · rw [hj] at hok
    cases j with
    | bool b => exact absurd rfl (hns b)
    | null => exact (Except.ok.inj hok).symm
    | _ => simp_all

theorem decTime_ok_default {f : List (String × Json)} {k : String} {v : NHNCloudTime}
    (hmk : missingOrNotStr f k) (hok : decTime f k = .ok v) : v = ⟨GoTime.zero⟩ := by
  unfold decTime at hok
  rcases hmk with h | ⟨j, hj, hns⟩
  · rw [h] at hok
    exact (Except.ok.inj hok).symm
  · rw [hj] at hok
    cases j <;> simp_all [Json.isStr, NHNCloudTime.unmarshalJSON]

theorem decVPCs_ok_default {f : List (String × Json)} {k : String}
    {v : List FlexibleVPCInfo}
    (hmk : missingOrNotArr f k) (hok : decVPCs f k = .ok v) : v = [] := by
  unfold decVPCs at hok
  rcases hmk with h | ⟨j, hj, hns⟩
  · rw [h] at hok
    exact (Except.ok.inj hok).symm
  · rw [hj] at hok
    cases j <;> simp_all [Json.isArr]

theorem decSubnets_ok_default {f : List (String × Json)} {k : String}
    {v : List FlexibleSubnetInfo}
    (hmk : missingOrNotArr f k) (hok : decSubnets f k = .ok v) : v = [] := by
  unfold decSubnets at hok
  rcases hmk with h | ⟨j, hj, hns⟩
  · rw [h] at hok
    exact (Except.ok.inj hok).symm
  · rw [hj] at hok
    cases j <;> simp_all [Json.isArr]

theorem decRoutes_ok_default {f : List (String × Json)} {k : String} {v : List Route}
    (hmk : missingOrNotArr f k) (hok : decRoutes f k = .ok v) : v = [] := by
  unfold decRoutes at hok
  rcases hmk with h | ⟨j, hj, hns⟩
  · rw [h] at hok
    exact (Except.ok.inj hok).symm
  · rw [hj] at hok
    cases j <;> simp_all [Json.isArr]

theorem mapStr_default {f : List (String × Json)} {k : String}
    (hmk : missingOrNotStr f k) : mapStr f k = "" := by
  unfold mapStr
  rcases hmk with h | ⟨j, hj, hns⟩
  · rw [h]
  · rw [hj]
    cases j <;> simp_all [Json.isStr]

theorem mapBool_default {f : List (String × Json)} {k : String}
    (hmk : missingOrNotBool f k) : mapBool f k = false := by
  unfold mapBool
  rcases hmk with h | ⟨j, hj, hns⟩
  · rw [h]
  · rw [hj]
    cases j with
    | bool b => exact absurd rfl (hns b)
    | _ => rfl

theorem mapParse_createTime_default {f : List (String × Json)}
    (hmk : missingOrNotStr f "create_time") :
    (parseRoutingTableFromMap f).CreateTime = ⟨GoTime.zero⟩ := by
  show (match Json.lookupKey f "create_time" with
    | some (.str s) =>
      match NHNCloudTime.unmarshalJSON (.str s) with
      | .ok ct => ct
      | .error _ => ⟨GoTime.zero⟩
    | _ => ⟨GoTime.zero⟩) = ⟨GoTime.zero⟩
  rcases hmk with h | ⟨j, hj, hns⟩
  · rw [h]
  · rw [hj]
    cases j <;> simp_all [Json.isStr]

theorem mapParse_vpcs_default {f : List (String × Json)}
    (hmk : missingOrNotArr f "vpcs") :
    (parseRoutingTableFromMap f).VPCs = [] := by
  show (match Json.lookupKey f "vpcs" with
    | some v => parseFlexibleVPCs v
    | none => []) = []
  rcases hmk with h | ⟨j, hj, hns⟩
  · rw [h]
  · rw [hj]
    cases j <;> simp_all [Json.isArr, parseFlexibleVPCs]

theorem mapParse_subnets_default {f : List (String × Json)}
    (hmk : missingOrNotArr f "subnets") :
    (parseRoutingTableFromMap f).Subnets = [] := by
  show (match Json.lookupKey f "subnets" with
    | some v => parseFlexibleSubnets v
    | none => []) = []
  rcases hmk with h | ⟨j, hj, hns⟩
  · rw [h]
  · rw [hj]
    cases j <;> simp_all [Json.isArr, parseFlexibleSubnets]

theorem mapParse_routes_default {f : List (String × Json)}
    (hmk : missingOrNotArr f "routes") :
    (parseRoutingTableFromMap f).Routes = [] := by
  show (match Json.lookupKey f "routes" with
    | some (.arr elems) => parseRoutes elems
    | _ => []) = []
  rcases hmk with h | ⟨j, hj, hns⟩
  · rw [h]
  · rw [hj]
    cases j <;> simp_all [Json.isArr]

/-- C7: when the routing-table envelope holds a JSON object, extraction
always produces a record without error, and every field that is absent or
has the wrong JSON type comes out at its type's zero value. -/
theorem C7_extract_missing_and_mistyped_default
    (bf f : List (String × Json))
    (hrt : Json.lookupKey bf "routingtable" = some (.obj f)) :
    ∃ rt, RoutingTableResult.Extract ⟨.obj bf, none⟩ = .ok (some rt) ∧
      (missingOrNotStr f "id" → rt.ID = "") ∧
      (missingOrNotStr f "name" → rt.Name = "") ∧
      (missingOrNotBool f "default_table" → rt.DefaultTable = false) ∧
      (missingOrNotBool f "distributed" → rt.Distributed = false) ∧
      (missingOrNotStr f "gateway_id" → rt.GatewayID = "") ∧
      (missingOrNotStr f "gateway_name" → rt.GatewayName = "") ∧
      (missingOrNotStr f "tenant_id" → rt.TenantID = "") ∧
      (missingOrNotStr f "state" → rt.State = "") ∧
      (missingOrNotStr f "create_time" → rt.CreateTime = ⟨GoTime.zero⟩) ∧
      (missingOrNotArr f "vpcs" → rt.VPCs = []) ∧
      (missingOrNotArr f "subnets" → rt.Subnets = []) ∧
      (missingOrNotArr f "routes" → rt.Routes = []) := by
  cases hs : RoutingTable.strictDecode f with
  | ok rt0 =>
    have m := strictDecode_ok_fields f rt0 hs
    refine ⟨rt0, ?_, ?_, ?_, ?_, ?_, ?_, ?_, ?_, ?_, ?_, ?_, ?_, ?_⟩
    · simp [RoutingTableResult.Extract, extractStrict, hrt, hs, Except.map]
    · exact fun hmk => decStr_ok_default hmk m.1
    · exact fun hmk => decStr_ok_default hmk m.2.1
    · exact fun hmk => decBool_ok_default hmk m.2.2.1
    · exact fun hmk => decBool_ok_default hmk m.2.2.2.1
    · exact fun hmk => decStr_ok_default hmk m.2.2.2.2.1
    · exact fun hmk => decStr_ok_default hmk m.2.2.2.2.2.1
    · exact fun hmk => decStr_ok_default hmk m.2.2.2.2.2.2.1
    · exact fun hmk => decStr_ok_default hmk m.2.2.2.2.2.2.2.1
    · exact fun hmk => decTime_ok_default hmk m.2.2.2.2.2.2.2.2.1
    · exact fun hmk => decVPCs_ok_default hmk m.2.2.2.2.2.2.2.2.2.1
    · exact fun hmk => decSubnets_ok_default hmk m.2.2.2.2.2.2.2.2.2.2.1
    · exact fun hmk => decRoutes_ok_default hmk m.2.2.2.2.2.2.2.2.2.2.2
  | error e =>
    refine ⟨parseRoutingTableFromMap f, ?_, ?_, ?_, ?_, ?_, ?_, ?_, ?_, ?_, ?_, ?_, ?_, ?_⟩
    · simp [RoutingTableResult.Extract, extractStrict, hrt, hs, Except.map,
        extractWithFallback]
    · exact fun hmk => mapStr_default hmk
    · exact fun hmk => mapStr_default hmk
    · exact fun hmk => mapBool_default hmk
    · exact fun hmk => mapBool_default hmk
    · exact fun hmk => mapStr_default hmk
    · exact fun hmk => mapStr_default hmk
    · exact fun hmk => mapStr_default hmk
    · exact fun hmk => mapStr_default hmk
    · exact fun hmk => mapParse_createTime_default hmk
    · exact fun hmk => mapParse_vpcs_default hmk
    · exact fun hmk => mapParse_subnets_default hmk
    · exact fun hmk => mapParse_routes_default hmk

theorem C7_extract_missing_and_mistyped_default_witness :
    ∃ rt, RoutingTableResult.Extract
        ⟨.obj [("routingtable", .obj [("id", .str "rt-1"), ("distributed", .str "yes"),
          ("vpcs", .num 3)])], none⟩ = .ok (some rt) ∧
      rt.Name = "" ∧ rt.Distributed = false ∧ rt.VPCs = [] := by
  obtain ⟨rt, hx, _, hname, _, hdist, _, _, _, _, _, hvpcs, _, _⟩ :=
    C7_extract_missing_and_mistyped_default
      [("routingtable", .obj [("id", .str "rt-1"), ("distributed", .str "yes"),
        ("vpcs", .num 3)])]
      [("id", .str "rt-1"), ("distributed", .str "yes"), ("vpcs", .num 3)] rfl
  exact ⟨rt, hx, hname (Or.inl rfl),
    hdist (Or.inr ⟨.str "yes", rfl, fun b h => Json.noConfusion h⟩),
    hvpcs (Or.inr ⟨.num 3, rfl, rfl⟩)⟩

/-- A list element that is neither a bare string, nor an object, nor
`null` (for example a bare integer): exactly those inputs make the
strict flexible decode fail and the permissive per-element parser drop
the element. -/
def flexMalformed (j : Json) : Prop :=
  j.isStr = false ∧ j.isObj = false ∧ j ≠ .null

theorem flexVPC_unmarshal_malformed {j : Json} (hm : flexMalformed j) :
    FlexibleVPCInfo.unmarshalJSON j = .error "object" := by
  obtain ⟨h1, h2, h3⟩ := hm
  cases j <;> simp_all [Json.isStr, Json.isObj, FlexibleVPCInfo.unmarshalJSON,
    decodeIdNameObject, Except.map]

theorem flexSubnet_unmarshal_malformed {j : Json} (hm : flexMalformed j) :
    FlexibleSubnetInfo.unmarshalJSON j = .error "object" := by
  obtain ⟨h1, h2, h3⟩ := hm
  cases j <;> simp_all [Json.isStr, Json.isObj, FlexibleSubnetInfo.unmarshalJSON,
    decodeIdNameObject, Except.map]

theorem flexVPCElem?_malformed {j : Json} (hm : flexMalformed j) :
    flexVPCElem? j = none := by
  obtain ⟨h1, h2, h3⟩ := hm
  cases j <;> simp_all [Json.isStr, Json.isObj, flexVPCElem?]

theorem flexSubnetElem?_malformed {j : Json} (hm : flexMalformed j) :
    flexSubnetElem? j = none := by
  obtain ⟨h1, h2, h3⟩ := hm
  cases j <;> simp_all [Json.isStr, Json.isObj, flexSubnetElem?]

theorem decVPCList_append_error (pre post : List Json) (bad : Json)
    (hbad : flexMalformed bad) :
    ∃ e, decVPCList (pre ++ bad :: post) = .error e := by
  induction pre with
  | nil =>
    refine ⟨"object", ?_⟩
    simp [decVPCList, flexVPC_unmarshal_malformed hbad, Bind.bind, Except.bind]
  | cons x rest ih =>
    obtain ⟨e, he⟩ := ih
    cases hx : FlexibleVPCInfo.unmarshalJSON x with
    | error ex =>
      exact ⟨ex, by simp [decVPCList, hx, Bind.bind, Except.bind]⟩
    | ok vx =>
      exact ⟨e, by simp [decVPCList, hx, he, Bind.bind, Except.bind]⟩

theorem decSubnetList_append_error (pre post : List Json) (bad : Json)
    (hbad : flexMalformed bad) :
    ∃ e, decSubnetList (pre ++ bad :: post) = .error e := by
  induction pre with
  | nil =>
    refine ⟨"object", ?_⟩
    simp [decSubnetList, flexSubnet_unmarshal_malformed hbad, Bind.bind, Except.bind]
  | cons x rest ih =>
    obtain ⟨e, he⟩ := ih
    cases hx : FlexibleSubnetInfo.unmarshalJSON x with
    | error ex =>
      exact ⟨ex, by simp [decSubnetList, hx, Bind.bind, Except.bind]⟩
    | ok vx =>
      exact ⟨e, by simp [decSubnetList, hx, he, Bind.bind, Except.bind]⟩

theorem filterMap_length_of_isSome {α β : Type} (g : α → Option β) (l : List α)
    (h : ∀ x ∈ l, (g x).isSome) : (l.filterMap g).length = l.length := by
  induction l with
  | nil => rfl
  | cons a rest ih =>
    have ha := h a (List.mem_cons_self a rest)
    obtain ⟨b, hb⟩ := Option.isSome_iff_exists.mp ha
    rw [List.filterMap_cons, hb]
    simp only [List.length_cons]
    rw [ih fun x hx => h x (List.mem_cons_of_mem a hx)]

/-- C1: a payload whose `vpcs` (or `subnets`) list holds exactly one
malformed element among well-formed ones still extracts, and the
resulting reference list holds exactly the well-formed elements, in
order, with no gaps. -/
theorem C1_malformed_reference_element_dropped :
    (∀ (bf f : List (String × Json)) (pre post : List Json) (bad : Json),
      Json.lookupKey bf "routingtable" = some (.obj f) →
      Json.lookupKey f "vpcs" = some (.arr (pre ++ bad :: post)) →
      flexMalformed bad →
      (∀ x ∈ pre ++ post, (flexVPCElem? x).isSome) →
      ∃ rt, RoutingTableResult.Extract ⟨.obj bf, none⟩ = .ok (some rt) ∧
        rt.VPCs = (pre ++ post).filterMap flexVPCElem? ∧
        rt.VPCs.length = pre.length + post.length) ∧
    (∀ (bf f : List (String × Json)) (pre post : List Json) (bad : Json),
      Json.lookupKey bf "routingtable" = some (.obj f) →
      Json.lookupKey f "subnets" = some (.arr (pre ++ bad :: post)) →
      flexMalformed bad →
      (∀ x ∈ pre ++ post, (flexSubnetElem? x).isSome) →
      ∃ rt, RoutingTableResult.Extract ⟨.obj bf, none⟩ = .ok (some rt) ∧
        rt.Subnets = (pre ++ post).filterMap flexSubnetElem? ∧
        rt.Subnets.length = pre.length + post.length) := by
  constructor
  · intro bf f pre post bad hrt hvpcs hbad hgood
    obtain ⟨e0, he0⟩ := decVPCList_append_error pre post bad hbad
    have hdv : decVPCs f "vpcs" = .error e0 := by
      unfold decVPCs
      rw [hvpcs]
      exact he0
    cases hs : RoutingTable.strictDecode f with
    | ok rt0 =>
      exfalso
      have m := (strictDecode_ok_fields f rt0 hs).2.2.2.2.2.2.2.2.2.1
      rw [hdv] at m
      exact Except.noConfusion m
    | error e =>
      refine ⟨parseRoutingTableFromMap f, ?_, ?_, ?_⟩
      · simp [RoutingTableResult.Extract, extractStrict, hrt, hs, Except.map,
          extractWithFallback]
      · show (match Json.lookupKey f "vpcs" with
          | some v => parseFlexibleVPCs v
          | none => []) = (pre ++ post).filterMap flexVPCElem?
        rw [hvpcs]
        show (pre ++ bad :: post).filterMap flexVPCElem? = (pre ++ post).filterMap flexVPCElem?
        rw [List.filterMap_append, List.filterMap_append, List.filterMap_cons,
          flexVPCElem?_malformed hbad]
      · show (match Json.lookupKey f "vpcs" with
          | some v => parseFlexibleVPCs v
          | none => []).length = pre.length + post.length
        rw [hvpcs]
        show ((pre ++ bad :: post).filterMap flexVPCElem?).length = pre.length + post.length
        rw [List.filterMap_append, List.filterMap_cons, flexVPCElem?_malformed hbad,
          List.length_append, filterMap_length_of_isSome _ _ fun x hx =>
            hgood x (List.mem_append_left _ hx),
          filterMap_length_of_isSome _ _ fun x hx =>
            hgood x (List.mem_append_right _ hx)]
  · intro bf f pre post bad hrt hsubnets hbad hgood
    obtain ⟨e0, he0⟩ := decSubnetList_append_error pre post bad hbad
    have hdv : decSubnets f "subnets" = .error e0 := by
      unfold decSubnets
      rw [hsubnets]
      exact he0
    cases hs : RoutingTable.strictDecode f with
    | ok rt0 =>
      exfalso
      have m := (strictDecode_ok_fields f rt0 hs).2.2.2.2.2.2.2.2.2.2.1
      rw [hdv] at m
      exact Except.noConfusion m
    | error e =>
      refine ⟨parseRoutingTableFromMap f, ?_, ?_, ?_⟩
      · simp [RoutingTableResult.Extract, extractStrict, hrt, hs, Except.map,
          extractWithFallback]
      · show (match Json.lookupKey f "subnets" with
          | some v => parseFlexibleSubnets v
          | none => []) = (pre ++ post).filterMap flexSubnetElem?
        rw [hsubnets]
        show (pre ++ bad :: post).filterMap flexSubnetElem? =
          (pre ++ post).filterMap flexSubnetElem?
        rw [List.filterMap_append, List.filterMap_append, List.filterMap_cons,
          flexSubnetElem?_malformed hbad]
      · show (match Json.lookupKey f "subnets" with
          | some v => parseFlexibleSubnets v
          | none => []).length = pre.length + post.length
        rw [hsubnets]
        show ((pre ++ bad :: post).filterMap flexSubnetElem?).length =
          pre.length + post.length
        rw [List.filterMap_append, List.filterMap_cons, flexSubnetElem?_malformed hbad,
          List.length_append, filterMap_length_of_isSome _ _ fun x hx =>
            hgood x (List.mem_append_left _ hx),
          filterMap_length_of_isSome _ _ fun x hx =>
            hgood x (List.mem_append_right _ hx)]

theorem C1_malformed_reference_element_dropped_witness :
    ∃ rt, RoutingTableResult.Extract
        ⟨.obj [("routingtable", .obj [("id", .str "rt-1"),
          ("vpcs", .arr [.str "vpc-1", .num 42,
            .obj [("id", .str "vpc-2"), ("name", .str "secondvpc")]])])], none⟩ =
      .ok (some rt) ∧
      rt.VPCs = ([Json.str "vpc-1",
        Json.obj [("id", .str "vpc-2"), ("name", .str "secondvpc")]]).filterMap flexVPCElem? ∧
      rt.VPCs.length = ([Json.str "vpc-1"]).length +
        ([Json.obj [("id", .str "vpc-2"), ("name", .str "secondvpc")]]).length :=
  C1_malformed_reference_element_dropped.1
    [("routingtable", .obj [("id", .str "rt-1"),
      ("vpcs", .arr [.str "vpc-1", .num 42,
        .obj [("id", .str "vpc-2"), ("name", .str "secondvpc")]])])]
    [("id", .str "rt-1"),
      ("vpcs", .arr [.str "vpc-1", .num 42,
        .obj [("id", .str "vpc-2"), ("name", .str "secondvpc")]])]
    [Json.str "vpc-1"] [Json.obj [("id", .str "vpc-2"), ("name", .str "secondvpc")]]
    (.num 42) rfl rfl ⟨rfl, rfl, fun h => Json.noConfusion h⟩
    (by
      intro x hx
      rcases List.mem_cons.mp hx with h | hx2
      · subst h; rfl
      · rcases List.mem_cons.mp hx2 with h | hx3
        · subst h; rfl
        · cases hx3)

/-- C8: a routing-table list body without a `routingtables_links` field
reports no next page: empty next-page URL and no error. -/
theorem C8_no_links_field_no_next_page (bf : List (String × Json))
    (h : Json.lookupKey bf "routingtables_links" = none) :
    RoutingTablePage.NextPageURL (.obj bf) = .ok "" := by
  have hd : decodeRoutingTablesLinks (.obj bf) = .ok [] := by
    show (match Json.lookupKey bf "routingtables_links" with
      | none => Except.ok []
      | some Json.null => Except.ok []
      | some (.arr elems) => decLinkList elems
      | some _ => Except.error "routingtables_links") = .ok []
    rw [h]
  unfold RoutingTablePage.NextPageURL
  rw [hd]
  rfl

theorem C8_no_links_field_no_next_page_witness :
    RoutingTablePage.NextPageURL (.obj [("routingtables", .arr [])]) = .ok "" :=
  C8_no_links_field_no_next_page [("routingtables", .arr [])] rfl

theorem names_foldl_filter {α : Type} (nameOf : α → String) (l : List α)
    (acc : List String) :
    l.foldl (fun names v => if nameOf v ≠ "" then names ++ [nameOf v] else names) acc =
      acc ++ (l.map nameOf).filter (fun n => n ≠ "") := by
  induction l generalizing acc with
  | nil => simp
  | cons a rest ih =>
    simp only [List.foldl_cons, List.map_cons, List.filter_cons]
    by_cases ha : nameOf a ≠ ""
    · rw [if_pos ha, ih, if_pos (by simpa using ha), List.append_assoc]
      rfl
    · rw [if_neg ha, ih, if_neg (by simpa using ha)]

/-- C10: the ID accessors return one entry per reference, in order,
including empty IDs; the name accessors return only the non-empty names,
in order, so they can be shorter. -/
theorem C10_accessor_projections (rt : RoutingTable) :
    rt.GetVPCIDs.length = rt.VPCs.length ∧
    (∀ i : Nat, rt.GetVPCIDs[i]? = (rt.VPCs[i]?).map FlexibleVPCInfo.ID) ∧
    rt.GetVPCNames = (rt.VPCs.map FlexibleVPCInfo.Name).filter (fun n => n ≠ "") ∧
    rt.GetVPCNames.length ≤ rt.VPCs.length ∧
    rt.GetSubnetIDs.length = rt.Subnets.length ∧
    (∀ i : Nat, rt.GetSubnetIDs[i]? = (rt.Subnets[i]?).map FlexibleSubnetInfo.ID) ∧
    rt.GetSubnetNames = (rt.Subnets.map FlexibleSubnetInfo.Name).filter (fun n => n ≠ "") ∧
    rt.GetSubnetNames.length ≤ rt.Subnets.length := by
  refine ⟨?_, ?_, ?_, ?_, ?_, ?_, ?_, ?_⟩
  · simp [RoutingTable.GetVPCIDs]
  · intro i
    simp [RoutingTable.GetVPCIDs, List.getElem?_map]
  · rw [RoutingTable.GetVPCNames, names_foldl_filter FlexibleVPCInfo.Name]
    simp
  · rw [RoutingTable.GetVPCNames, names_foldl_filter FlexibleVPCInfo.Name]
    simp only [List.nil_append]
    simpa using List.length_filter_le (fun n => decide (n ≠ ""))
      (rt.VPCs.map FlexibleVPCInfo.Name)
  · simp [RoutingTable.GetSubnetIDs]
  · intro i
    simp [RoutingTable.GetSubnetIDs, List.getElem?_map]
  · rw [RoutingTable.GetSubnetNames, names_foldl_filter FlexibleSubnetInfo.Name]
    simp
  · rw [RoutingTable.GetSubnetNames, names_foldl_filter FlexibleSubnetInfo.Name]
    simp only [List.nil_append]
    simpa using List.length_filter_le (fun n => decide (n ≠ ""))
      (rt.Subnets.map FlexibleSubnetInfo.Name)

